import Mathlib

/-!
Shallow embedding of the MediOracle retrieval core (backend/rag of the
repository): the safety guard (`utils/safety.js`), the in-memory vector store
(`vectorStore.js`), the mock embedder (`embeddings.js`), the chunker
(`chunker.js`) and the two orchestrator variants found in `rag/index.js`
(referred to below as V1 and V2, the first and second copy of the file).

JavaScript numbers are modelled as real numbers (`ℝ`); strings are modelled as
Lean `String`s operated on through their character lists.  Functions that can
`throw` return `Except String`.
-/

/-! ## JavaScript string primitives -/

/-- Characters treated as whitespace by the model (the ASCII part of the
JavaScript `\s` class / `trim`; the inputs considered here are ASCII). -/
def isJsSpace (c : Char) : Bool :=
  c == ' ' || c == '\t' || c == '\n' || c == '\r'

/-- JavaScript word characters (`\w` = `[A-Za-z0-9_]`), used for the `\b`
boundaries of the emergency regexes. -/
def isJsWordChar (c : Char) : Bool :=
  c.isAlphanum || c == '_'

/-- Model of `String.prototype.toLowerCase` (ASCII case folding). -/
def jsToLower (s : String) : String :=
  String.mk (s.data.map Char.toLower)

/-- Model of `String.prototype.trim` on character lists. -/
def trimChars (l : List Char) : List Char :=
  ((l.dropWhile isJsSpace).reverse.dropWhile isJsSpace).reverse

/-- Model of `String.prototype.trim`. -/
def jsTrim (s : String) : String :=
  String.mk (trimChars s.data)

/-- Substring test on character lists: does `n` occur inside `h`?
(`h.includes(n)` in JavaScript; the empty needle is always found). -/
def isSubAux (n : List Char) : List Char → Bool
  | [] => n.isEmpty
  | c :: rest => n.isPrefixOf (c :: rest) || isSubAux n rest

/-- Model of `s.includes(sub)`. -/
def strIncludes (s sub : String) : Bool :=
  isSubAux sub.data s.data

/-- Number of non-overlapping occurrences of `n` in `h`, scanning left to
right and skipping past each match — the semantics of counting the matches of
a (special-character-escaped, hence literal) global regex as done in
`index.js`.  The needle is never empty at the call sites; an empty needle is
counted as 0. -/
def countOccurAux (n : List Char) : List Char → ℕ
  | [] => 0
  | c :: rest =>
    if n ≠ [] ∧ n.isPrefixOf (c :: rest) then
      countOccurAux n ((c :: rest).drop n.length) + 1
    else
      countOccurAux n rest
termination_by l => l.length
decreasing_by
  · simp only [List.length_drop]
    have hn : 0 < n.length := List.length_pos.mpr (by tauto)
    simp only [List.length_cons]
    omega
  · simp

/-- Model of counting the matches of the literal pattern `n` in `h`. -/
def countOccur (n h : String) : ℕ :=
  countOccurAux n.data h.data

/-! ## SafetyGuard (`backend/utils/safety.js`) -/

/-- The `EMERGENCY_KEYWORDS` list of `safety.js`. -/
def EMERGENCY_KEYWORDS : List String :=
  ["chest pain", "breathing difficulty", "loss of consciousness",
   "severe bleeding", "internal bleeding", "bleeding internally",
   "vomiting blood", "blood in stool", "blood in urine",
   "bleeding from rectum", "poisoning", "allergic reaction", "stroke",
   "cardiac arrest", "severe trauma", "suicide", "overdose", "severe injury",
   "broken bone", "head injury", "severe burn", "difficulty breathing",
   "shortness of breath", "severe pain"]

/-- Does `w1 ++ \s+ ++ w2` (with a trailing `\b`) match at the very start of
`l`?  Helper for the emergency-pattern regexes.  Returns the rest of the input
after the match when it succeeds. -/
def gapMatchRest (w1 w2 : List Char) (l : List Char) : Option (List Char) :=
  if w1.isPrefixOf l then
    match l.drop w1.length with
    | [] => none
    | c :: rest =>
      if isJsSpace c then
        let rest2 := (c :: rest).dropWhile isJsSpace
        if w2.isPrefixOf rest2 then
          match rest2.drop w2.length with
          | [] => some []
          | d :: rest3 => if isJsWordChar d then none else some (d :: rest3)
        else none
      else none
  else none

/-- Scan `l` for a match of `\b w1 \s+ w2 \b`; `prevWord` records whether the
character just before `l` is a word character (for the leading `\b`). -/
def scanTwoWord (w1 w2 : List Char) : Bool → List Char → Bool
  | _, [] => false
  | prevWord, c :: rest =>
    (!prevWord && (gapMatchRest w1 w2 (c :: rest)).isSome)
      || scanTwoWord w1 w2 (isJsWordChar c) rest

/-- Model of `/\b w1 \s+ w2 \b/i.test(s)`: both the pattern words and the
input are case folded. -/
def twoWordMatch (w1 w2 s : String) : Bool :=
  scanTwoWord (jsToLower w1).data (jsToLower w2).data false (jsToLower s).data

/-- Scan for `\b w1 \s+ w2 \b .* \b w3 \s+ w4 \b` (the compound emergency
patterns).  The `.*` is modelled as "any characters"; the newline restriction
of a dotall-less JavaScript `.` is immaterial for the single-line inputs the
claims are about.  After the first pair matches, the character preceding the
remainder is the final (word) character of `w2`, so the second scan starts
with `prevWord = true`. -/
def scanTwoWordThen (w1 w2 w3 w4 : List Char) : Bool → List Char → Bool
  | _, [] => false
  | prevWord, c :: rest =>
    (!prevWord &&
      (match gapMatchRest w1 w2 (c :: rest) with
       | some rem => scanTwoWord w3 w4 true rem
       | none => false))
      || scanTwoWordThen w1 w2 w3 w4 (isJsWordChar c) rest

/-- Model of `/\b w1 \s+ w2 \b .* \b w3 \s+ w4 \b/i.test(s)`. -/
def twoWordThenMatch (w1 w2 w3 w4 s : String) : Bool :=
  scanTwoWordThen (jsToLower w1).data (jsToLower w2).data
    (jsToLower w3).data (jsToLower w4).data false (jsToLower s).data

/-- The `emergencyPatterns.some(p => p.test(userInput))` check of
`detectEmergency`. -/
def matchesEmergencyPatterns (s : String) : Bool :=
  twoWordMatch "internal" "bleeding" s ||
  twoWordMatch "bleeding" "internally" s ||
  twoWordThenMatch "high" "fever" "internal" "bleeding" s ||
  twoWordThenMatch "internal" "bleeding" "high" "fever" s

/-- Body of `detectEmergency` applied to a (non-empty) string input: keyword
containment on the lower-cased input, or one of the compound patterns. -/
def detectEmergencyStr (s : String) : Bool :=
  EMERGENCY_KEYWORDS.any (fun kw => strIncludes (jsToLower s) (jsToLower kw))
    || matchesEmergencyPatterns s

/-- Untyped JavaScript values, as far as `detectEmergency`'s guard can
distinguish them. -/
inductive JSValue where
  | nullV : JSValue
  | undefinedV : JSValue
  | strV : String → JSValue
  | numV : ℚ → JSValue
  | boolV : Bool → JSValue

/-- JavaScript truthiness of a `JSValue` (`!v` is the negation of this). -/
def jsFalsy : JSValue → Bool
  | JSValue.nullV => true
  | JSValue.undefinedV => true
  | JSValue.strV s => s == ""
  | JSValue.numV q => q == 0
  | JSValue.boolV b => !b

/-- Is the value a string (`typeof v === 'string'`)? -/
def JSValue.isStringV : JSValue → Bool
  | JSValue.strV _ => true
  | _ => false

/-- Model of a `.toLowerCase()` member access on an arbitrary value: throws a
`TypeError` unless the receiver is a string. -/
def jsToLowerCaseMember : JSValue → Except String String
  | JSValue.strV s => Except.ok (jsToLower s)
  | JSValue.nullV => Except.error "TypeError: cannot read properties of null"
  | JSValue.undefinedV =>
      Except.error "TypeError: cannot read properties of undefined"
  | _ => Except.error "TypeError: toLowerCase is not a function"

/-- Model of `detectEmergency(userInput)` (`safety.js` lines 192-213, also
reachable via `pdfIngestion.js`'s copy): the guard
`if (!userInput || typeof userInput !== 'string') return false` runs before
any member access, so degenerate inputs yield `false` rather than a
`TypeError`. -/
def detectEmergencyJS (v : JSValue) : Except String Bool :=
  if jsFalsy v || !v.isStringV then Except.ok false
  else do
    let lower ← jsToLowerCaseMember v
    let hasKw := EMERGENCY_KEYWORDS.any (fun kw => strIncludes lower (jsToLower kw))
    let pat := match v with
      | JSValue.strV s => matchesEmergencyPatterns s
      | _ => false
    Except.ok (hasKw || pat)

/-- The message of `generateEmergencyResponse()` in `safety.js`. -/
def EMERGENCY_MESSAGE : String :=
  "🚨 EMERGENCY DETECTED 🚨\n\nYour symptoms may indicate a medical emergency.\n\n**IMMEDIATE ACTION REQUIRED:**\n📞 Call 911 (US) or your local emergency number\n🏥 Go to the nearest emergency room immediately\n⏰ Do NOT wait for a response from an AI\n\n**DO NOT rely on this AI for emergency situations.**\n\nYour safety is paramount. Please seek immediate professional medical care."

/-! ## VectorStore (`backend/rag/vectorStore.js`) -/

/-- A stored document chunk (`this.documents` entries).  Of the metadata only
the source name is relevant to the claims; the remaining metadata fields
(page, chunkIndex, timestamp) are carried by none of the verified
properties. -/
structure StoredDoc where
  id : ℕ
  content : String
  embedding : List ℝ
  source : String

/-- A search result: the chunk without its embedding, plus the (display)
similarity. -/
structure SearchResult where
  id : ℕ
  content : String
  source : String
  similarity : ℝ

/-- `vecA.reduce((sum, a) => sum + a*a, 0)` — the sum of squares used for the
magnitudes (and for the mock embedder's norm). -/
noncomputable def sumSq (l : List ℝ) : ℝ :=
  l.foldl (fun s x => s + x * x) 0

/-- `Math.sqrt(...)` of the sum of squares: a vector's magnitude. -/
noncomputable def magList (l : List ℝ) : ℝ :=
  Real.sqrt (sumSq l)

/-- The dot product `vecA.reduce((sum, a, i) => sum + a * vecB[i], 0)`
(evaluated only under the equal-length guard). -/
noncomputable def dotList (a b : List ℝ) : ℝ :=
  (a.zip b).foldl (fun s p => s + p.1 * p.2) 0

/-- The numeric value computed by `cosineSimilarity` once the dimension guard
has passed: 0 when either magnitude is 0, otherwise the normalized dot
product. -/
noncomputable def cosVal (a b : List ℝ) : ℝ :=
  if magList a = 0 ∨ magList b = 0 then 0
  else dotList a b / (magList a * magList b)

/-- `VectorStore.cosineSimilarity` (`vectorStore.js` lines 40-54): throws on a
dimension mismatch, otherwise returns `cosVal`. -/
noncomputable def cosineSimilarity (vecA vecB : List ℝ) : Except String ℝ :=
  if vecA.length ≠ vecB.length then Except.error "Vector dimensions must match"
  else Except.ok (cosVal vecA vecB)

/-- Left-to-right effectful map over a list in `Except`: the semantics of a
JavaScript `Array.prototype.map` whose callback can throw (the first throw
propagates). -/
def mapMEx {α β : Type} (f : α → Except String β) : List α → Except String (List β)
  | [] => Except.ok []
  | a :: t =>
    match f a with
    | Except.error e => Except.error e
    | Except.ok b => (mapMEx f t).map (fun bs => b :: bs)

/-- Stable insertion into a similarity-descending list: the placement produced
by a stable `sort((a, b) => b.similarity - a.similarity)`. -/
noncomputable def insertBySim (x : SearchResult) : List SearchResult → List SearchResult
  | [] => [x]
  | y :: t => if y.similarity < x.similarity then x :: y :: t else y :: insertBySim x t

/-- Model of `results.sort((a, b) => b.similarity - a.similarity)`: stable
sort, descending by similarity. -/
noncomputable def sortBySimDesc : List SearchResult → List SearchResult
  | [] => []
  | x :: t => insertBySim x (sortBySimDesc t)

/-- The per-document scoring step of `search`: the chunk (minus embedding)
together with `cosineSimilarity(queryEmbedding, doc.embedding)`'s value. -/
noncomputable def scoreDoc (queryEmbedding : List ℝ) (d : StoredDoc) : SearchResult :=
  SearchResult.mk d.id d.content d.source (cosVal queryEmbedding d.embedding)

/-- Replace a result's similarity by `Math.max(floor, similarity)`. -/
noncomputable def floorSim (floor : ℝ) (r : SearchResult) : SearchResult :=
  SearchResult.mk r.id r.content r.source (max floor r.similarity)

/-- `VectorStore.search` (`vectorStore.js` lines 63-101): empty-store guard,
cosine scoring of every document (throwing on a dimension mismatch),
descending sort, threshold filter, the empty-filter fallback (top `topK`
floored to 0.2), the partial-filter backfill with below-threshold results,
the final `topK` truncation and the 0.1 display floor. -/
noncomputable def search (documents : List StoredDoc) (queryEmbedding : List ℝ)
    (topK : ℕ) (threshold : ℝ) : Except String (List SearchResult) :=
  if documents.length = 0 then Except.ok []
  else
    match mapMEx (fun d => (cosineSimilarity queryEmbedding d.embedding).map
        (fun s => SearchResult.mk d.id d.content d.source s)) documents with
    | Except.error e => Except.error e
    | Except.ok results =>
      let sorted := sortBySimDesc results
      let filtered := sorted.filter (fun r => decide (threshold ≤ r.similarity))
      let chosen :=
        if filtered.length = 0 then
          (sorted.take topK).map (floorSim 0.2)
        else if filtered.length < topK then
          filtered ++ (sorted.filter (fun r => decide (r.similarity < threshold))).take
            (topK - filtered.length)
        else filtered
      Except.ok ((chosen.take topK).map (floorSim 0.1))

/-- The sorted, threshold-filtered result list that `search` computes
internally (named so the fallback/backfill claims can refer to it). -/
noncomputable def searchFiltered (documents : List StoredDoc) (queryEmbedding : List ℝ)
    (threshold : ℝ) : List SearchResult :=
  (sortBySimDesc (documents.map (scoreDoc queryEmbedding))).filter
    (fun r => decide (threshold ≤ r.similarity))

/-! ## EmbeddingService (`backend/rag/embeddings.js`) -/

/-- Wrap an integer into the signed 32-bit range, as JavaScript's `<<`
operator does with its operand and result. -/
def jsWrap32 (n : ℤ) : ℤ :=
  (n + 2 ^ 31) % 2 ^ 32 - 2 ^ 31

/-- One step of the word hash `hash = ((hash << 5) - hash) + charCode`: the
shift coerces to 32 bits, the subtraction and addition are exact (the
intermediate values stay far below 2^53). -/
def hashStep (h : ℤ) (c : Char) : ℤ :=
  jsWrap32 (32 * h) - h + c.toNat

/-- The accumulated hash of a word (`charCodeAt` equals `Char.toNat` on the
basic-plane characters used here). -/
def hashWord (w : String) : ℤ :=
  w.data.foldl hashStep 0

/-- `embedding[i] = (embedding[i] || 0) + v` (the index is always in range at
the call sites; an out-of-range `List.set` is a no-op). -/
def addAt (l : List ℝ) (i : ℕ) (v : ℝ) : List ℝ :=
  l.set i (l.getD i 0 + v)

/-- Scatter one word's hash into the embedding: weights 0.6 / 0.4 / 0.2 at
`|hash| % 1500` and the two following positions (mod 1536); empty words are
skipped. -/
def scatterWord (l : List ℝ) (w : String) : List ℝ :=
  if w.length = 0 then l
  else
    let baseIdx := (hashWord w).natAbs % 1500
    addAt (addAt (addAt l baseIdx 0.6) ((baseIdx + 1) % 1536) 0.4)
      ((baseIdx + 2) % 1536) 0.2

/-- `EmbeddingService._generateMockEmbedding` (`embeddings.js` lines 104-129):
lower-case, split on whitespace, scatter each word's hash contributions into a
1536-slot vector, then L2-normalize (leaving the vector unchanged when the
norm is 0).  JavaScript's `split(/\s+/)` differs from splitting at every
whitespace character only in the empty tokens it produces, and empty tokens
are skipped. -/
noncomputable def generateMockEmbedding (text : String) : List ℝ :=
  let words := (jsToLower text).split isJsSpace
  let emb := words.foldl scatterWord (List.replicate 1536 0)
  let norm := Real.sqrt (sumSq emb)
  emb.map (fun v => if 0 < norm then v / norm else v)

/-- The observable state of the `EmbeddingService` singleton when no OpenAI
key is configured: `this.embeddings` stays `null`, only `initialized` can
change. -/
structure EmbStateMock where
  initialized : Bool

/-- `EmbeddingService.generateEmbedding` in mock mode (`embeddings.js` lines
46-67 with `this.embeddings === null`): `initialize()` marks the service
initialized; an empty/whitespace-only text throws inside the `try`, and the
`catch` falls back to the mock embedding — so both paths return the mock
embedding of the text. -/
noncomputable def generateEmbeddingMock (st : EmbStateMock) (text : String) :
    List ℝ × EmbStateMock :=
  match st with
  | EmbStateMock.mk _ =>
    if text = "" ∨ (jsTrim text).length = 0 then
      (generateMockEmbedding text, EmbStateMock.mk true)
    else
      (generateMockEmbedding text, EmbStateMock.mk true)

/-! ## DocumentChunker (`backend/rag/chunker.js`) -/

/-- Is the character a sentence terminator (`[.!?]`)? -/
def isTermChar (c : Char) : Bool :=
  c == '.' || c == '!' || c == '?'

/-- The successive matches of `/[^.!?]+[.!?]+/g`: maximal runs of
non-terminators followed by maximal runs of terminators; a trailing run
without a terminator is not matched.  The fuel argument (always instantiated
with more than the input length) keeps the recursion structural. -/
def sentenceMatchesAux : ℕ → List Char → List (List Char)
  | 0, _ => []
  | fuel + 1, l =>
    let l1 := l.dropWhile isTermChar
    let run := l1.takeWhile (fun c => !isTermChar c)
    if run = [] then []
    else
      match l1.drop run.length with
      | [] => []
      | c :: rest =>
        let terms := (c :: rest).takeWhile isTermChar
        (run ++ terms) :: sentenceMatchesAux fuel ((c :: rest).drop terms.length)

/-- The match list of `/[^.!?]+[.!?]+/g` over `l`. -/
def sentenceMatches (l : List Char) : List (List Char) :=
  sentenceMatchesAux (l.length + 1) l

/-- `text.match(/[^.!?]+[.!?]+/g) || [text]`: the sentence list used by
`chunkText` (`null` from `match` becomes the one-element list `[text]`). -/
def chunkSentences (text : String) : List String :=
  let ms := (sentenceMatches text.data).map String.mk
  if ms.length = 0 then [text] else ms

/-- A chunk record as produced by `chunkText`. -/
structure Chunk where
  content : String
  index : ℕ
  source : String
  startChar : ℤ
  endChar : ℤ

/-- Model of `text.indexOf(sub)`: index of the first occurrence, or -1. -/
def jsIndexOfAux (sub : List Char) : List Char → ℤ
  | [] => if sub.isEmpty then 0 else -1
  | c :: rest =>
    if sub.isPrefixOf (c :: rest) then 0
    else
      let r := jsIndexOfAux sub rest
      if r = -1 then -1 else r + 1

/-- Model of `text.indexOf(sub)` on strings. -/
def jsIndexOf (text sub : String) : ℤ :=
  jsIndexOfAux sub.data text.data

/-- Build the record pushed by `chunks.push({...})`. -/
def mkChunk (text source content : String) (index : ℕ) : Chunk :=
  Chunk.mk content index source (jsIndexOf text content)
    (jsIndexOf text content + content.length)

/-- `DocumentChunker.calculateOverlap` (`chunker.js` lines 69-80): walk
backwards from `currentIndex - 1`, prepending trimmed sentences while the
accumulated character count is below the overlap budget; `revPrev` is the
reversed prefix `sentences[0..currentIndex-1]`. -/
def overlapAux (overlap : ℕ) : List String → String → ℕ → String
  | [], acc, _ => acc
  | s :: rest, acc, charCount =>
    if charCount < overlap then
      overlapAux overlap rest (jsTrim s ++ " " ++ acc) (charCount + (jsTrim s).length)
    else acc

/-- `calculateOverlap(sentences, currentIndex)`. -/
def calculateOverlap (overlap : ℕ) (sentences : List String) (currentIndex : ℕ) : String :=
  jsTrim (overlapAux overlap ((sentences.take currentIndex).reverse) "" 0)

/-- The main loop of `chunkText`: `remaining` is the suffix of `sentences`
from position `i`; `cur` is `currentChunk`, `cidx` is `chunkIndex`, `acc` the
chunks flushed so far (in order).  A sentence is appended (with a joining
space not counted by the size check) when `(cur ++ sentence).length` fits,
otherwise the current chunk is flushed and a new one starts from the overlap
window plus the sentence. -/
def chunkLoop (chunkSize overlap : ℕ) (text source : String) (sentences : List String) :
    ℕ → List String → String → ℕ → List Chunk → List Chunk
  | _, [], cur, cidx, acc =>
    if cur = "" then acc else acc ++ [mkChunk text source cur cidx]
  | i, s :: rest, cur, cidx, acc =>
    let sentence := jsTrim s
    if (cur ++ sentence).length ≤ chunkSize then
      chunkLoop chunkSize overlap text source sentences (i + 1) rest
        (cur ++ (if cur = "" then "" else " ") ++ sentence) cidx acc
    else
      let acc2 := if cur = "" then acc else acc ++ [mkChunk text source cur cidx]
      let cidx2 := if cur = "" then cidx else cidx + 1
      let ovText := calculateOverlap overlap sentences i
      chunkLoop chunkSize overlap text source sentences (i + 1) rest
        (ovText ++ (if ovText = "" then "" else " ") ++ sentence) cidx2 acc2

/-- `DocumentChunker.chunkText` (`chunker.js` lines 18-61). -/
def chunkText (chunkSize overlap : ℕ) (text source : String) : List Chunk :=
  let sentences := chunkSentences text
  chunkLoop chunkSize overlap text source sentences 0 sentences "" 0 []

/-! ## RAGPipeline (`backend/rag/index.js`) -/

/-- A `sourcesUsed` entry.  JavaScript stores `similarity.toFixed(3)` (a
3-decimal string rendering); the model keeps the numeric value — only the
emptiness and count of `sourcesUsed` are referenced by the claims. -/
structure SourceUsed where
  source : String
  similarity : ℝ
  excerpt : String

/-- The two shapes a query can return: the fixed emergency payload of
`generateEmergencyResponse()` (which has `isEmergency`/`message` fields and no
`sourcesUsed`), and the ordinary answer shape (`isDemoMode`/`tokensUsed` are
constant false/zero on every modelled path and are omitted). -/
inductive QueryOutcome where
  | emergency : Bool → String → ℝ → QueryOutcome
  | answer : Bool → String → List SourceUsed → ℝ → QueryOutcome

/-- The confidence carried by an outcome. -/
def QueryOutcome.conf : QueryOutcome → ℝ
  | QueryOutcome.emergency _ _ c => c
  | QueryOutcome.answer _ _ _ c => c

/-- The fixed payload of `generateEmergencyResponse()`. -/
def emergencyOutcome : QueryOutcome :=
  QueryOutcome.emergency true EMERGENCY_MESSAGE 1.0

/-- The fixed no-documents response text of `generateResponse` and of V1
`query`. -/
def NO_INFO_RESPONSE : String :=
  "I could not find relevant medical information in the knowledge base. Please consult a healthcare provider for your questions."

/-- The V2 `query` response when the index is empty and no OpenAI client is
available (`index.js` line 1005). -/
def NO_API_EMPTY_RESPONSE : String :=
  "⚠️ **IMPORTANT MEDICAL DISCLAIMER**\n\nThis information is for educational purposes only and does NOT constitute medical advice. Always consult a qualified healthcare provider.\n\n**OpenAI API is not available.**\n\nPlease configure OPENAI_API_KEY to answer general medical questions, or upload a medical PDF document first to ask questions about it."

/-- The V2 `query` response when the index is non-empty but retrieval found
nothing and no OpenAI client is available (`index.js` line 1052). -/
def NO_API_NO_RESULTS_RESPONSE : String :=
  "⚠️ **IMPORTANT MEDICAL DISCLAIMER**\n\nThis information is for educational purposes only and does NOT constitute medical advice. Always consult a qualified healthcare provider.\n\n**No relevant information found in uploaded documents and OpenAI API is not available.**\n\nPlease try asking a different question or configure OPENAI_API_KEY."

/-- The assembled extractive response text (`generateResponse` lines 208-287).
Its exact wording is referenced by no claim; the model keeps the fixed
disclaimer header, the query restatement and the concatenated source
contents, and omits the per-source excerpt trimming, the percentage rendering
and the key-point pattern extraction, which affect only this string. -/
def extractiveResponseText (query : String) (docs : List SearchResult) : String :=
  "⚠️ **IMPORTANT MEDICAL DISCLAIMER**\n" ++
  "This information is for educational purposes only and does NOT constitute medical advice. Always consult a qualified healthcare provider for proper evaluation and treatment.\n" ++
  "**Based on your question: \"" ++ query ++ "\"**\n" ++
  String.intercalate "\n" (docs.map (fun d => d.content)) ++
  "\n**Recommendations:**\n• Consult a qualified healthcare provider for proper evaluation"

/-- A default result used to model the JavaScript access
`retrievedDocuments[0]` (only evaluated when the list is non-empty). -/
def defaultResult : SearchResult :=
  SearchResult.mk 0 "" "" 0

/-- `RAGPipeline.generateResponse` (both copies; `index.js` lines 189-310 and
778-899): the emergency check, the empty-retrieval payload with confidence
0.0, and otherwise the extractive answer whose confidence is
`min(0.95, retrievedDocuments[0].similarity + 0.1)` and whose `sourcesUsed`
lists every retrieved document. -/
noncomputable def generateResponse (query : String) (docs : List SearchResult) : QueryOutcome :=
  if detectEmergencyStr query then emergencyOutcome
  else if docs.length = 0 then
    QueryOutcome.answer true NO_INFO_RESPONSE [] 0.0
  else
    QueryOutcome.answer true (extractiveResponseText query docs)
      (docs.map (fun d => SourceUsed.mk d.source d.similarity (d.content.take 100 ++ "...")))
      (if 0 < docs.length then min 0.95 ((docs.headD defaultResult).similarity + 0.1) else 0.5)

/-- V1 `retrieveRelevantDocuments` (`index.js` lines 165-181) in the demo
configuration: mock query embedding, default threshold 0.7 (no
`SIMILARITY_THRESHOLD` in the environment), no keyword fallback. -/
noncomputable def retrieveV1 (store : List StoredDoc) (query : String) (topK : ℕ) :
    Except String (List SearchResult) :=
  search store (generateMockEmbedding query) topK 0.7

/-- V1 `RAGPipeline.query` (`index.js` lines 366-390): retrieval first; the
empty-retrieval early return; otherwise `generateResponse` — the emergency
check only runs inside `generateResponse`. -/
noncomputable def queryV1 (store : List StoredDoc) (q : String) : Except String QueryOutcome :=
  match retrieveV1 store q 5 with
  | Except.error e => Except.error e
  | Except.ok docs =>
    if docs.length = 0 then
      Except.ok (QueryOutcome.answer true NO_INFO_RESPONSE [] 0.0)
    else
      Except.ok (generateResponse q docs)

/-- `RAGPipeline._keywordSearch` (`index.js` lines 723-770): score documents
by query-word occurrence counts plus an exact-phrase bonus, squash into
`min(0.95, max(0.1, score / (len*2 + 10)))`, keep those above 0.1, sort
descending and truncate to `topK`. -/
noncomputable def keywordSearch (store : List StoredDoc) (query : String) (topK : ℕ) :
    List SearchResult :=
  let queryLower := jsToLower query
  let queryWords := (queryLower.split isJsSpace).filter (fun w => 2 < w.length)
  let scored := store.map (fun d =>
    let contentLower := jsToLower d.content
    let score := queryWords.foldl (fun s w => s + countOccur w contentLower) 0
    let score2 := if strIncludes contentLower queryLower then score + 10 else score
    SearchResult.mk d.id d.content d.source
      (min 0.95 (max 0.1 ((score2 : ℝ) / ((queryWords.length : ℝ) * 2 + 10)))))
  (sortBySimDesc (scored.filter (fun r => decide ((0.1 : ℝ) < r.similarity)))).take topK

/-- V2 `retrieveRelevantDocuments` (`index.js` lines 678-715) in the demo
configuration: mock embedding, mock-mode default threshold 0.1, keyword
search when the embedding search returns nothing (or throws) on a non-empty
store. -/
noncomputable def retrieveV2 (store : List StoredDoc) (query : String) (topK : ℕ) :
    Except String (List SearchResult) :=
  match search store (generateMockEmbedding query) topK 0.1 with
  | Except.error e =>
    if 0 < store.length then Except.ok (keywordSearch store query topK)
    else Except.error e
  | Except.ok results =>
    if results.length = 0 ∧ 0 < store.length then
      Except.ok (keywordSearch store query topK)
    else Except.ok results

/-- V2 `RAGPipeline.query` (`index.js` lines 955-1068).  `llmAvailable` is
whether `_getOpenAIClient()` returns a client; `llmAnswer` abstracts a
successful chat-completion call (those branches return its text with
`sourcesUsed: []` and `confidence: 0.7`). -/
noncomputable def queryV2 (llmAvailable : Bool) (llmAnswer : String → String)
    (store : List StoredDoc) (q : String) : Except String QueryOutcome :=
  match retrieveV2 store q 5 with
  | Except.error e => Except.error e
  | Except.ok docs =>
    if store.length = 0 then
      if llmAvailable then
        Except.ok (QueryOutcome.answer true (llmAnswer q) [] 0.7)
      else
        Except.ok (QueryOutcome.answer true NO_API_EMPTY_RESPONSE [] 0.0)
    else if docs.length = 0 then
      if llmAvailable then
        Except.ok (QueryOutcome.answer true (llmAnswer q) [] 0.7)
      else
        Except.ok (QueryOutcome.answer true NO_API_NO_RESULTS_RESPONSE [] 0.0)
    else
      Except.ok (generateResponse q docs)

/-! ## V1 `diagnoseSymptoms` (`index.js` lines 398-489) -/

/-- A suggested condition.  `sources` holds the `(source, excerpt)` document
references. -/
structure ConditionSuggestion where
  condition : String
  confidence : ℝ
  rationale : String
  sources : List (String × String)

/-- The outcome of the V1 free document-based diagnosis. -/
structure DiagnoseOutcome where
  success : Bool
  possible_conditions : List ConditionSuggestion
  sources : List (String × ℝ)

/-- The `diseaseMap` disease → keyword table. -/
def diseaseMap : List (String × List String) :=
  [("Dengue", ["dengue", "dengue fever", "aedes"]),
   ("Gastroenteritis / Food poisoning",
    ["gastroenteritis", "food poisoning", "vomit", "vomiting", "diarrhea"]),
   ("Upper gastrointestinal bleeding (e.g., peptic ulcer)",
    ["hematemesis", "vomiting blood", "upper gi bleed", "peptic ulcer"]),
   ("Respiratory infection (viral or bacterial)",
    ["influenza", "flu", "respiratory infection", "cough", "pneumonia"]),
   ("Migraine / Headache disorder", ["migraine", "severe headache", "headache"])]

/-- The running evidence for one disease. -/
structure Evidence where
  score : ℝ
  mentions : ℕ
  docRefs : List (String × String)

/-- Update the association list `evidenceScores` at `name`, inserting a fresh
entry at the end on first occurrence (JavaScript object insertion order). -/
def updateEvidence (name : String) (f : Evidence → Evidence) :
    List (String × Evidence) → List (String × Evidence)
  | [] => [(name, f (Evidence.mk 0 0 []))]
  | (n, e) :: rest =>
    if n = name then (n, f e) :: rest else (n, e) :: updateEvidence name f rest

/-- Accumulate one retrieved document's keyword counts into the evidence
table: for each disease, the total occurrence count of its keywords in the
lower-cased content, weighted by the document similarity (`|| 0.5` for a
falsy similarity), plus a 240-character excerpt reference. -/
noncomputable def accumulateDoc (acc : List (String × Evidence)) (doc : SearchResult) :
    List (String × Evidence) :=
  diseaseMap.foldl (fun acc2 d =>
    let content := jsToLower doc.content
    let count : ℕ := d.2.foldl (fun c kw => c + countOccur kw content) 0
    if count = 0 then acc2
    else updateEvidence d.1 (fun e =>
      Evidence.mk
        (e.score + (count : ℝ) * (if doc.similarity = 0 then 0.5 else doc.similarity))
        (e.mentions + count)
        (e.docRefs ++ [(doc.source, (jsToLower doc.content).take 240)])) acc2) acc

/-- `evidenceScores` after all retrieved documents. -/
noncomputable def evidenceList (docs : List SearchResult) : List (String × Evidence) :=
  docs.foldl accumulateDoc []

/-- `Math.round(x * 100) / 100` (`Math.round` is floor of `x + 0.5`; the
arguments here are non-negative). -/
noncomputable def jsRound2 (x : ℝ) : ℝ :=
  ((⌊x * 100 + 1 / 2⌋ : ℤ) : ℝ) / 100

/-- The suggestion built from one evidence entry:
`min(0.95, max(0.2, score / (1 + score)))`, rounded to 2 decimals. -/
noncomputable def evidenceSuggestion (p : String × Evidence) : ConditionSuggestion :=
  ConditionSuggestion.mk p.1
    (jsRound2 (min 0.95 (max 0.2 (p.2.score / (1 + p.2.score)))))
    (toString p.2.mentions ++ " relevant term(s) found in documents")
    p.2.docRefs

/-- The urgent override entry unshifted by the symptom-based heuristic. -/
def urgentSuggestion : ConditionSuggestion :=
  ConditionSuggestion.mk "Urgent: Possible bleeding event (seek emergency care)" 0.98
    "Signs of active bleeding were reported." []

/-- The urgent-override test (`index.js` line 453), with JavaScript operator
precedence: `s.includes('nose') && s.includes('bleed') || s.includes('nosebleed')
|| s.includes('continuous')`. -/
def bleedingOverride (lower : List String) : Bool :=
  lower.any (fun s => strIncludes s "vomit" && strIncludes s "blood") ||
  lower.any (fun s =>
    (strIncludes s "nose" && strIncludes s "bleed") || strIncludes s "nosebleed"
      || strIncludes s "continuous")

/-- The simple symptom-mapping fallback (`index.js` lines 458-474), reached
only when no suggestion was produced from the documents. -/
def simpleFallback (joined : String) : List ConditionSuggestion :=
  let s1 :=
    if strIncludes joined "fever" && strIncludes joined "cough" then
      [ConditionSuggestion.mk "Possible respiratory infection (viral or bacterial)" 0.6
        "Fever and cough commonly indicate respiratory infections." []]
    else []
  let s2 :=
    if strIncludes joined "fever" &&
        (strIncludes joined "stomach" || strIncludes joined "abdominal"
          || strIncludes joined "pain") then
      s1 ++ [ConditionSuggestion.mk "Possible systemic infection such as dengue" 0.55
        "High fever with abdominal pain may indicate systemic infection." []]
    else s1
  let s3 :=
    if (strIncludes joined "vomit" && strIncludes joined "blood")
        || (strIncludes joined "nose" && strIncludes joined "bleed") then
      ConditionSuggestion.mk "Urgent: Possible bleeding event (seek emergency care)" 0.95
        "Bleeding signs (vomiting blood, nosebleed) require immediate evaluation." [] :: s2
    else s2
  if s3.length = 0 then
    [ConditionSuggestion.mk "Requires professional medical evaluation" 0.4
      "No clear mapping from symptoms to conditions; further evaluation required." []]
  else s3

/-- Stable insertion for the descending confidence sort
(`sort((a, b) => (b.confidence || 0) - (a.confidence || 0))`). -/
noncomputable def insertByConf (x : ConditionSuggestion) :
    List ConditionSuggestion → List ConditionSuggestion
  | [] => [x]
  | y :: t => if y.confidence < x.confidence then x :: y :: t else y :: insertByConf x t

/-- Stable sort of the suggestions, descending by confidence. -/
noncomputable def sortByConfDesc : List ConditionSuggestion → List ConditionSuggestion
  | [] => []
  | x :: t => insertByConf x (sortByConfDesc t)

/-- The scoring stage of V1 `diagnoseSymptoms`, from the retrieved documents
on (`index.js` lines 410-484): evidence aggregation, the urgent bleeding
override unshifted in front, the simple fallback when nothing was suggested,
the descending sort and the truncation to 4 suggestions. -/
noncomputable def scoreConditions (symptomsList : List String) (docs : List SearchResult) :
    DiagnoseOutcome :=
  let lower := symptomsList.map jsToLower
  let base := (evidenceList docs).map evidenceSuggestion
  let withUrgent := if bleedingOverride lower then urgentSuggestion :: base else base
  let withFallback :=
    if withUrgent.length = 0 then withUrgent ++ simpleFallback (String.intercalate " " lower)
    else withUrgent
  DiagnoseOutcome.mk true ((sortByConfDesc withFallback).take 4)
    (docs.map (fun d => (d.source, d.similarity)))

/-- V1 `RAGPipeline.diagnoseSymptoms` (`index.js` lines 398-489): builds the
retrieval query from the symptom list (age/gender default to `N/A`; they only
appear in the query text), retrieves 6 documents through the V1 path and
scores.  The `detectEmergency` helper imported by the file is never called on
this path. -/
noncomputable def diagnoseSymptomsV1 (store : List StoredDoc) (symptoms : List String) :
    Except String DiagnoseOutcome :=
  match retrieveV1 store
      ("Symptoms: " ++ String.intercalate ", " symptoms ++
        ". Age: N/A. Gender: N/A. Provide possible educational conditions.") 6 with
  | Except.error e => Except.error e
  | Except.ok docs => Except.ok (scoreConditions symptoms docs)

/-! ## General lemmas -/

theorem str_empty_append (s : String) : "" ++ s = s := by
  cases s
  simp [String.append]

theorem jsTrim_empty : jsTrim "" = "" := rfl

theorem dropWhile_eq_drop_length_takeWhile (p : Char → Bool) (l : List Char) :
    l.dropWhile p = l.drop (l.takeWhile p).length := by
  induction l with
  | nil => rfl
  | cons c t ih =>
    by_cases h : p c
    · simp [List.takeWhile_cons, List.dropWhile_cons, h, ih]
    · simp [List.takeWhile_cons, List.dropWhile_cons, h]

theorem mem_dropWhile_of_not (p : Char → Bool) (l : List Char) (c : Char)
    (hc : c ∈ l) (hp : p c = false) : c ∈ l.dropWhile p := by
  have h := List.takeWhile_append_dropWhile p l
  rw [← h] at hc
  rcases List.mem_append.mp hc with h1 | h2
  · have := List.mem_takeWhile_imp h1
    simp [hp] at this
  · exact h2

theorem trimChars_ne_nil (l : List Char) (c : Char) (hc : c ∈ l)
    (hp : isJsSpace c = false) : trimChars l ≠ [] := by
  intro h
  unfold trimChars at h
  have h2 : (l.dropWhile isJsSpace).reverse.dropWhile isJsSpace = [] := by
    simpa using congrArg List.reverse h
  have h3 : ∀ x ∈ (l.dropWhile isJsSpace).reverse, isJsSpace x = true :=
    fun x hx => List.dropWhile_eq_nil_iff.mp h2 x hx
  have h4 : c ∈ (l.dropWhile isJsSpace).reverse :=
    List.mem_reverse.mpr (mem_dropWhile_of_not _ _ _ hc hp)
  have := h3 c h4
  simp [hp] at this

theorem jsTrim_mk_ne_empty (l : List Char) (c : Char) (hc : c ∈ l)
    (hp : isJsSpace c = false) : jsTrim (String.mk l) ≠ "" := by
  intro h
  exact trimChars_ne_nil l c hc hp (congrArg String.data h)

/-! ## Lemmas about the descending sorts -/

theorem mem_insertBySim (x a : SearchResult) (l : List SearchResult) :
    a ∈ insertBySim x l ↔ a = x ∨ a ∈ l := by
  induction l with
  | nil => simp [insertBySim]
  | cons y t ih =>
    by_cases h : y.similarity < x.similarity
    · simp [insertBySim, h]
    · simp [insertBySim, h, ih]
      tauto

theorem mem_sortBySimDesc (a : SearchResult) (l : List SearchResult) :
    a ∈ sortBySimDesc l ↔ a ∈ l := by
  induction l with
  | nil => simp [sortBySimDesc]
  | cons x t ih => simp [sortBySimDesc, mem_insertBySim, ih]

theorem length_insertBySim (x : SearchResult) (l : List SearchResult) :
    (insertBySim x l).length = l.length + 1 := by
  induction l with
  | nil => simp [insertBySim]
  | cons y t ih =>
    by_cases h : y.similarity < x.similarity
    · simp [insertBySim, h]
    · simp [insertBySim, h, ih]

theorem length_sortBySimDesc (l : List SearchResult) :
    (sortBySimDesc l).length = l.length := by
  induction l with
  | nil => rfl
  | cons x t ih => simp [sortBySimDesc, length_insertBySim, ih]

theorem pairwise_insertBySim (x : SearchResult) (l : List SearchResult)
    (h : l.Pairwise (fun a b => b.similarity ≤ a.similarity)) :
    (insertBySim x l).Pairwise (fun a b => b.similarity ≤ a.similarity) := by
  induction l with
  | nil => simp [insertBySim]
  | cons y t ih =>
    rcases List.pairwise_cons.mp h with ⟨hy, ht⟩
    by_cases hlt : y.similarity < x.similarity
    · rw [insertBySim, if_pos hlt]
      refine List.pairwise_cons.mpr ⟨?_, h⟩
      intro b hb
      rcases List.mem_cons.mp hb with rfl | hb2
      · exact le_of_lt hlt
      · exact le_trans (hy b hb2) (le_of_lt hlt)
    · rw [insertBySim, if_neg hlt]
      refine List.pairwise_cons.mpr ⟨?_, ih ht⟩
      intro b hb
      rcases (mem_insertBySim x b t).mp hb with rfl | hb2
      · exact le_of_not_lt hlt
      · exact hy b hb2

theorem pairwise_sortBySimDesc (l : List SearchResult) :
    (sortBySimDesc l).Pairwise (fun a b => b.similarity ≤ a.similarity) := by
  induction l with
  | nil => simp [sortBySimDesc]
  | cons x t ih => exact pairwise_insertBySim x (sortBySimDesc t) ih

theorem mem_insertByConf (x a : ConditionSuggestion) (l : List ConditionSuggestion) :
    a ∈ insertByConf x l ↔ a = x ∨ a ∈ l := by
  induction l with
  | nil => simp [insertByConf]
  | cons y t ih =>
    by_cases h : y.confidence < x.confidence
    · simp [insertByConf, h]
    · simp [insertByConf, h, ih]
      tauto

theorem mem_sortByConfDesc (a : ConditionSuggestion) (l : List ConditionSuggestion) :
    a ∈ sortByConfDesc l ↔ a ∈ l := by
  induction l with
  | nil => simp [sortByConfDesc]
  | cons x t ih => simp [sortByConfDesc, mem_insertByConf, ih]

theorem sortByConfDesc_head_of_max (x : ConditionSuggestion) (l : List ConditionSuggestion)
    (h : ∀ y ∈ l, y.confidence < x.confidence) :
    (sortByConfDesc (x :: l)).head? = some x := by
  rw [sortByConfDesc]
  cases hs : sortByConfDesc l with
  | nil => rfl
  | cons y t =>
    have hy : y ∈ l := (mem_sortByConfDesc y l).mp (by rw [hs]; exact List.mem_cons_self y t)
    rw [insertByConf, if_pos (h y hy)]
    rfl

/-! ## Lemmas about `mapMEx` and `search` -/

theorem mapMEx_ok {α β : Type} (f : α → Except String β) (g : α → β) (l : List α)
    (h : ∀ a ∈ l, f a = Except.ok (g a)) : mapMEx f l = Except.ok (l.map g) := by
  induction l with
  | nil => rfl
  | cons a t ih =>
    have ha := h a (List.mem_cons_self a t)
    rw [mapMEx, ha, ih (fun b hb => h b (List.mem_cons_of_mem a hb))]
    rfl

theorem mapMEx_error {α β : Type} (f : α → Except String β) (l : List α) (msg : String)
    (hmsg : ∀ a ∈ l, ∀ e, f a = Except.error e → e = msg)
    (hex : ∃ a ∈ l, ∀ b, f a ≠ Except.ok b) :
    mapMEx f l = Except.error msg := by
  induction l with
  | nil => simp at hex
  | cons a t ih =>
    rcases hex with ⟨w, hw, hwe⟩
    cases hfa : f a with
    | error e =>
      rw [mapMEx, hfa, hmsg a (List.mem_cons_self a t) e hfa]
    | ok b =>
      have hwt : w ∈ t := by
        rcases List.mem_cons.mp hw with rfl | h2
        · exact absurd hfa (hwe b)
        · exact h2
      rw [mapMEx, hfa,
        ih (fun x hx => hmsg x (List.mem_cons_of_mem a hx)) ⟨w, hwt, hwe⟩]
      rfl

theorem cosineSimilarity_ok (a b : List ℝ) (h : a.length = b.length) :
    cosineSimilarity a b = Except.ok (cosVal a b) := by
  rw [cosineSimilarity, if_neg (by simp [h])]

theorem cosineSimilarity_error (a b : List ℝ) (h : a.length ≠ b.length) :
    cosineSimilarity a b = Except.error "Vector dimensions must match" := by
  rw [cosineSimilarity, if_pos h]

/-- For matching dimensions, `search` computes exactly the
sort/filter/fallback pipeline over the scored documents. -/
theorem search_eq (documents : List StoredDoc) (q : List ℝ) (topK : ℕ) (threshold : ℝ)
    (hne : documents ≠ [])
    (hdim : ∀ d ∈ documents, d.embedding.length = q.length) :
    search documents q topK threshold =
      Except.ok
        (((if (searchFiltered documents q threshold).length = 0 then
            ((sortBySimDesc (documents.map (scoreDoc q))).take topK).map (floorSim 0.2)
          else if (searchFiltered documents q threshold).length < topK then
            searchFiltered documents q threshold ++
              ((sortBySimDesc (documents.map (scoreDoc q))).filter
                (fun r => decide (r.similarity < threshold))).take
                (topK - (searchFiltered documents q threshold).length)
          else searchFiltered documents q threshold).take topK).map (floorSim 0.1)) := by
  have hmap : mapMEx (fun d => (cosineSimilarity q d.embedding).map
      (fun s => SearchResult.mk d.id d.content d.source s)) documents =
      Except.ok (documents.map (scoreDoc q)) := by
    refine mapMEx_ok _ (scoreDoc q) documents (fun d hd => ?_)
    rw [cosineSimilarity_ok q d.embedding (hdim d hd).symm]
    rfl
  rw [search, if_neg (by simp [hne]), hmap, searchFiltered]

theorem search_empty (q : List ℝ) (topK : ℕ) (threshold : ℝ) :
    search [] q topK threshold = Except.ok [] := rfl

theorem floorSim_similarity (c : ℝ) (r : SearchResult) :
    (floorSim c r).similarity = max c r.similarity := rfl

theorem floorSim_comp (r : SearchResult) : floorSim 0.1 (floorSim 0.2 r) = floorSim 0.2 r := by
  have h : max (0.1 : ℝ) (max 0.2 r.similarity) = max 0.2 r.similarity :=
    max_eq_right (le_trans (by norm_num) (le_max_left 0.2 r.similarity))
  simp [floorSim, h]

/-- In a list sorted non-increasingly by similarity, the at-least-threshold
results form a prefix: filtering above and below the threshold splits the
list into two consecutive pieces. -/
theorem filter_ge_append_filter_lt (t : ℝ) (l : List SearchResult)
    (h : l.Pairwise (fun a b => b.similarity ≤ a.similarity)) :
    l.filter (fun r => decide (t ≤ r.similarity)) ++
      l.filter (fun r => decide (r.similarity < t)) = l := by
  induction l with
  | nil => rfl
  | cons x xs ih =>
    rcases List.pairwise_cons.mp h with ⟨hx, hxs⟩
    by_cases ht : t ≤ x.similarity
    · rw [List.filter_cons_of_pos (by simpa using ht),
        List.filter_cons_of_neg (by simpa using not_lt.mpr ht)]
      simpa using ih hxs
    · have hxlt : x.similarity < t := not_le.mp ht
      rw [List.filter_cons_of_neg (by simpa using ht),
        List.filter_cons_of_pos (by simpa using hxlt)]
      have h1 : xs.filter (fun r => decide (t ≤ r.similarity)) = [] := by
        refine List.filter_eq_nil_iff.mpr (fun y hy => ?_)
        simpa using not_le.mpr (lt_of_le_of_lt (hx y hy) hxlt)
      have h2 : xs.filter (fun r => decide (r.similarity < t)) = xs := by
        refine List.filter_eq_self.mpr (fun y hy => ?_)
        simpa using lt_of_le_of_lt (hx y hy) hxlt
      rw [h1, h2]
      rfl

/-- Backfilling the above-threshold prefix with the next below-threshold
results is the same as taking the first `topK` of the sorted list. -/
theorem filtered_backfill_eq_take (t : ℝ) (l : List SearchResult) (k : ℕ)
    (h : l.Pairwise (fun a b => b.similarity ≤ a.similarity))
    (hk : (l.filter (fun r => decide (t ≤ r.similarity))).length ≤ k) :
    l.filter (fun r => decide (t ≤ r.similarity)) ++
      (l.filter (fun r => decide (r.similarity < t))).take
        (k - (l.filter (fun r => decide (t ≤ r.similarity))).length) = l.take k := by
  have hsplit := filter_ge_append_filter_lt t l h
  set m := (l.filter (fun r => decide (t ≤ r.similarity))).length with hm
  have hA : l.filter (fun r => decide (t ≤ r.similarity)) = l.take m := by
    conv_lhs => rw [← List.take_left (l.filter (fun r => decide (t ≤ r.similarity)))
      (l.filter (fun r => decide (r.similarity < t)))]
    rw [← hm, hsplit]
  have hB : l.filter (fun r => decide (r.similarity < t)) = l.drop m := by
    conv_lhs => rw [← List.drop_left (l.filter (fun r => decide (t ≤ r.similarity)))
      (l.filter (fun r => decide (r.similarity < t)))]
    rw [← hm, hsplit]
  rw [hA, hB, ← List.take_add]
  congr 1
  omega

theorem pairwise_map_floorSim (c : ℝ) (l : List SearchResult)
    (h : l.Pairwise (fun a b => b.similarity ≤ a.similarity)) :
    (l.map (floorSim c)).Pairwise (fun a b => b.similarity ≤ a.similarity) := by
  refine List.pairwise_map.mpr (h.imp ?_)
  intro a b hab
  simpa [floorSim_similarity] using max_le_max (le_refl c) hab

/-- Small evaluation facts used by the concrete witnesses. -/
theorem cosVal_single_one : cosVal [(1 : ℝ)] [1] = 1 := by
  have hm : magList [(1 : ℝ)] = 1 := by
    simp [magList, sumSq]
  rw [cosVal, if_neg (by rw [hm]; norm_num)]
  rw [hm]
  simp [dotList]

theorem cosVal_orth : cosVal [(0 : ℝ), 1] [1, 0] = 0 := by
  have hma : magList [(0 : ℝ), 1] = 1 := by
    simp [magList, sumSq]
  have hmb : magList [(1 : ℝ), 0] = 1 := by
    simp [magList, sumSq]
  rw [cosVal, if_neg (by rw [hma, hmb]; norm_num)]
  simp [dotList]

/-- Claim C3: on a non-empty index, a query embedding whose length differs
from some stored embedding's length makes `search` raise the
dimension-mismatch error instead of skipping the vector. -/
theorem search_raises_on_dimension_mismatch (documents : List StoredDoc) (q : List ℝ)
    (topK : ℕ) (threshold : ℝ) (hne : documents ≠ [])
    (d : StoredDoc) (hd : d ∈ documents) (hlen : d.embedding.length ≠ q.length) :
    search documents q topK threshold = Except.error "Vector dimensions must match" := by
  rw [search, if_neg (by simp [hne])]
  rw [mapMEx_error _ documents "Vector dimensions must match" ?hmsg ?hex]
  case hmsg =>
    intro a _ e he
    by_cases hl : q.length = a.embedding.length
    · rw [cosineSimilarity_ok _ _ hl] at he
      simp [Except.map] at he
    · rw [cosineSimilarity_error _ _ hl] at he
      simp [Except.map] at he
      exact he.symm
  case hex =>
    refine ⟨d, hd, fun b hb => ?_⟩
    rw [cosineSimilarity_error _ _ (fun hh => hlen hh.symm)] at hb
    simp [Except.map] at hb

/-- Witness for C3 at a one-document index with a 1-dimensional stored
embedding and a 0-dimensional query embedding. -/
theorem search_raises_on_dimension_mismatch_witness :
    search [StoredDoc.mk 0 "c" [(1 : ℝ)] "s"] [] 5 0.7 =
      Except.error "Vector dimensions must match" :=
  search_raises_on_dimension_mismatch _ _ _ _ (by simp)
    (StoredDoc.mk 0 "c" [(1 : ℝ)] "s") (by simp) (by simp)

/-- Claim C4: with matching dimensions, (a) when no stored chunk reaches the
threshold, `search` returns the top `topK` results of the descending sort
with each similarity floored to the 0.2 display minimum; (b) when the
above-threshold set is non-empty but smaller than `topK`, it backfills with
the next-best below-threshold results — the output is exactly the first
`topK` of the descending sort (0.1-floored), and its length is
`min topK documents.length` (index exhaustion). -/
theorem search_fallback_and_backfill (documents : List StoredDoc) (q : List ℝ)
    (topK : ℕ) (threshold : ℝ) (hne : documents ≠ [])
    (hdim : ∀ d ∈ documents, d.embedding.length = q.length) :
    (searchFiltered documents q threshold = [] →
      search documents q topK threshold = Except.ok
        (((sortBySimDesc (documents.map (scoreDoc q))).take topK).map (floorSim 0.2))) ∧
    (searchFiltered documents q threshold ≠ [] →
      (searchFiltered documents q threshold).length < topK →
      search documents q topK threshold = Except.ok
        (((sortBySimDesc (documents.map (scoreDoc q))).take topK).map (floorSim 0.1)) ∧
      ((sortBySimDesc (documents.map (scoreDoc q))).take topK).length
        = min topK documents.length) := by
  constructor
  · intro hempty
    have hlen : (((sortBySimDesc (documents.map (scoreDoc q))).take topK).map
        (floorSim 0.2)).length ≤ topK := by
      simp only [List.length_map, List.length_take]
      exact min_le_left _ _
    rw [search_eq documents q topK threshold hne hdim, hempty]
    rw [if_pos (by simp : (([] : List SearchResult)).length = 0)]
    rw [List.take_of_length_le hlen, List.map_map]
    exact congrArg Except.ok (List.map_congr_left (fun r _ => floorSim_comp r))
  · intro hne2 hlt
    have hk : (searchFiltered documents q threshold).length ≤ topK := le_of_lt hlt
    have hbackfill := filtered_backfill_eq_take threshold
      (sortBySimDesc (documents.map (scoreDoc q))) topK
      (pairwise_sortBySimDesc (documents.map (scoreDoc q))) (by
        simpa [searchFiltered] using hk)
    constructor
    · rw [search_eq documents q topK threshold hne hdim]
      rw [if_neg (by simpa [List.length_eq_zero] using hne2), if_pos hlt]
      have hbackfill2 : searchFiltered documents q threshold ++
          ((sortBySimDesc (documents.map (scoreDoc q))).filter
            (fun r => decide (r.similarity < threshold))).take
            (topK - (searchFiltered documents q threshold).length) =
          (sortBySimDesc (documents.map (scoreDoc q))).take topK := by
        simpa [searchFiltered] using hbackfill
      rw [hbackfill2, List.take_take, min_self]
    · simp only [List.length_take, length_sortBySimDesc, List.length_map]

/-- Witness for C4 at a one-chunk index whose similarity to the query is 0
(below the 0.7 threshold): the fallback path returns the chunk with its
similarity floored to 0.2. -/
theorem search_fallback_witness :
    search [StoredDoc.mk 0 "c" [(1 : ℝ), 0] "s"] [(0 : ℝ), 1] 5 0.7 =
      Except.ok [SearchResult.mk 0 "c" "s" 0.2] := by
  have hscore : scoreDoc [(0 : ℝ), 1] (StoredDoc.mk 0 "c" [(1 : ℝ), 0] "s") =
      SearchResult.mk 0 "c" "s" 0 := by
    simp [scoreDoc, cosVal_orth]
  have hfilter : searchFiltered [StoredDoc.mk 0 "c" [(1 : ℝ), 0] "s"] [(0 : ℝ), 1] 0.7 = [] := by
    rw [searchFiltered]
    simp only [List.map_cons, List.map_nil, hscore]
    rw [sortBySimDesc, sortBySimDesc, insertBySim]
    rw [List.filter_cons_of_neg (by norm_num), List.filter_nil]
  have h := (search_fallback_and_backfill [StoredDoc.mk 0 "c" [(1 : ℝ), 0] "s"] [(0 : ℝ), 1]
    5 0.7 (by simp) (by intro d hd; simp at hd; subst hd; rfl)).1 hfilter
  rw [h]
  simp only [List.map_cons, List.map_nil, hscore]
  rw [sortBySimDesc, sortBySimDesc, insertBySim]
  have hfl : floorSim 0.2 (SearchResult.mk 0 "c" "s" 0) = SearchResult.mk 0 "c" "s" 0.2 := by
    have hmax : max (0.2 : ℝ) 0 = 0.2 := max_eq_left (by norm_num)
    simp [floorSim, hmax]
  show Except.ok [floorSim 0.2 (SearchResult.mk 0 "c" "s" 0)] =
    Except.ok [SearchResult.mk 0 "c" "s" 0.2]
  rw [hfl]

/-- Claim C5: with matching dimensions, `search` returns at most `topK`
results, sorted non-increasingly by the similarity it reports. -/
theorem search_topK_and_sorted (documents : List StoredDoc) (q : List ℝ)
    (topK : ℕ) (threshold : ℝ)
    (hdim : ∀ d ∈ documents, d.embedding.length = q.length) :
    ∃ rs, search documents q topK threshold = Except.ok rs ∧
      rs.length ≤ topK ∧ rs.Pairwise (fun a b => b.similarity ≤ a.similarity) := by
  by_cases hne : documents = []
  · subst hne
    exact ⟨[], search_empty q topK threshold, by simp, by simp⟩
  · rw [search_eq documents q topK threshold hne hdim]
    refine ⟨_, rfl, ?_, ?_⟩
    · simp only [List.length_map, List.length_take]
      exact min_le_left _ _
    have hsorted := pairwise_sortBySimDesc (documents.map (scoreDoc q))
    have hchosen : (if (searchFiltered documents q threshold).length = 0 then
        ((sortBySimDesc (documents.map (scoreDoc q))).take topK).map (floorSim 0.2)
      else if (searchFiltered documents q threshold).length < topK then
        searchFiltered documents q threshold ++
          ((sortBySimDesc (documents.map (scoreDoc q))).filter
            (fun r => decide (r.similarity < threshold))).take
            (topK - (searchFiltered documents q threshold).length)
      else searchFiltered documents q threshold).Pairwise
        (fun a b => b.similarity ≤ a.similarity) := by
      split_ifs with h1 h2
      · exact (pairwise_map_floorSim 0.2 _ (hsorted.sublist (List.take_sublist _ _)))
      · refine List.pairwise_append.mpr ⟨?_, ?_, ?_⟩
        · exact hsorted.filter _
        · exact (hsorted.filter _).sublist (List.take_sublist _ _)
        · intro a ha b hb
          have ha1 : a ∈ (sortBySimDesc (documents.map (scoreDoc q))).filter
              (fun r => decide (threshold ≤ r.similarity)) := by
            simpa [searchFiltered] using ha
          have ha2 : threshold ≤ a.similarity := by
            simpa using List.of_mem_filter ha1
          have hb2 : b.similarity < threshold := by
            simpa using List.of_mem_filter (List.mem_of_mem_take hb)
          exact le_of_lt (lt_of_lt_of_le hb2 ha2)
      · exact hsorted.filter _
    exact pairwise_map_floorSim 0.1 _ (hchosen.sublist (List.take_sublist _ _))

/-- Witness for C5 at a one-chunk index with similarity 1 to the query. -/
theorem search_topK_and_sorted_witness :
    search [StoredDoc.mk 0 "c" [(1 : ℝ)] "s"] [(1 : ℝ)] 5 0.7 =
      Except.ok [SearchResult.mk 0 "c" "s" 1] ∧
    [SearchResult.mk 0 "c" "s" (1 : ℝ)].length ≤ 5 ∧
    [SearchResult.mk 0 "c" "s" (1 : ℝ)].Pairwise
      (fun a b => b.similarity ≤ a.similarity) := by
  obtain ⟨rs, h1, h2, h3⟩ := search_topK_and_sorted [StoredDoc.mk 0 "c" [(1 : ℝ)] "s"]
    [(1 : ℝ)] 5 0.7 (by intro d hd; simp at hd; subst hd; rfl)
  have hscore : scoreDoc [(1 : ℝ)] (StoredDoc.mk 0 "c" [(1 : ℝ)] "s") =
      SearchResult.mk 0 "c" "s" 1 := by
    simp [scoreDoc, cosVal_single_one]
  have hsf : searchFiltered [StoredDoc.mk 0 "c" [(1 : ℝ)] "s"] [(1 : ℝ)] 0.7 =
      [SearchResult.mk 0 "c" "s" 1] := by
    rw [searchFiltered]
    simp only [List.map_cons, List.map_nil, hscore, sortBySimDesc, insertBySim]
    rw [List.filter_cons_of_pos (by norm_num), List.filter_nil]
  have hfloor : floorSim 0.1 (SearchResult.mk 0 "c" "s" 1) = SearchResult.mk 0 "c" "s" 1 := by
    have hmax : max (0.1 : ℝ) 1 = 1 := max_eq_right (by norm_num)
    simp [floorSim, hmax]
  have hs : search [StoredDoc.mk 0 "c" [(1 : ℝ)] "s"] [(1 : ℝ)] 5 0.7 =
      Except.ok [SearchResult.mk 0 "c" "s" 1] := by
    rw [search_eq _ _ _ _ (by simp) (by intro d hd; simp at hd; subst hd; rfl), hsf]
    rw [if_neg (by norm_num), if_pos (by norm_num)]
    simp only [List.map_cons, List.map_nil, hscore, sortBySimDesc, insertBySim]
    rw [List.filter_cons_of_neg (by norm_num), List.filter_nil, List.take_nil,
      List.append_nil]
    show Except.ok [floorSim 0.1 (SearchResult.mk 0 "c" "s" 1)] =
      Except.ok [SearchResult.mk 0 "c" "s" 1]
    rw [hfloor]
  have hrs : rs = [SearchResult.mk 0 "c" "s" 1] := by
    have := h1.symm.trans hs
    simpa using this
  exact ⟨hs, hrs ▸ h2, hrs ▸ h3⟩

/-! ## Cosine similarity properties (C7) -/

theorem foldl_sumSq_le (l : List ℝ) (a : ℝ) :
    a ≤ l.foldl (fun s x => s + x * x) a := by
  induction l generalizing a with
  | nil => exact le_refl a
  | cons x t ih =>
    refine le_trans ?_ (ih (a + x * x))
    nlinarith [mul_self_nonneg x]

theorem sumSq_nonneg (l : List ℝ) : 0 ≤ sumSq l :=
  foldl_sumSq_le l 0

theorem foldl_sumSq_pos (l : List ℝ) (a : ℝ) (ha : 0 ≤ a)
    (h : ∃ x ∈ l, x ≠ 0) : 0 < l.foldl (fun s x => s + x * x) a := by
  induction l generalizing a with
  | nil => simp at h
  | cons y t ih =>
    rcases h with ⟨x, hx, hxne⟩
    rcases List.mem_cons.mp hx with rfl | hxt
    · have hxx : 0 < x * x := mul_self_pos.mpr hxne
      have h1 : a + x * x ≤ t.foldl (fun s x => s + x * x) (a + x * x) :=
        foldl_sumSq_le t (a + x * x)
      have h2 : (x :: t).foldl (fun s x => s + x * x) a =
          t.foldl (fun s x => s + x * x) (a + x * x) := rfl
      rw [h2]
      linarith
    · have hyy : (0 : ℝ) ≤ a + y * y := by nlinarith [mul_self_nonneg y]
      exact ih (a + y * y) hyy ⟨x, hxt, hxne⟩

theorem sumSq_pos (l : List ℝ) (h : ∃ x ∈ l, x ≠ 0) : 0 < sumSq l :=
  foldl_sumSq_pos l 0 le_rfl h

theorem dotList_self (v : List ℝ) : dotList v v = sumSq v := by
  rw [dotList, sumSq]
  suffices h : ∀ a : ℝ, ((v.zip v).foldl (fun s p => s + p.1 * p.2) a) =
      v.foldl (fun s x => s + x * x) a from h 0
  induction v with
  | nil => intro a; rfl
  | cons x t ih => intro a; simpa using ih (a + x * x)

theorem dotList_comm (a b : List ℝ) : dotList a b = dotList b a := by
  rw [dotList, dotList]
  suffices h : ∀ (a b : List ℝ) (s : ℝ), ((a.zip b).foldl (fun s p => s + p.1 * p.2) s) =
      ((b.zip a).foldl (fun s p => s + p.1 * p.2) s) from h a b 0
  intro a
  induction a with
  | nil => intro b s; cases b <;> rfl
  | cons x t ih =>
    intro b s
    cases b with
    | nil => rfl
    | cons y u => simpa [mul_comm] using ih u (s + x * y)

theorem magList_eq_zero_iff (l : List ℝ) : magList l = 0 ↔ sumSq l = 0 := by
  rw [magList]
  rw [Real.sqrt_eq_zero (sumSq_nonneg l)]

/-- Claim C7: `cosineSimilarity(v, v) = 1` for every vector with a non-zero
component (exactly, in the real-number idealization of the floats);
`cosineSimilarity` is symmetric in its arguments; and it returns 0 whenever
either equal-length argument has zero magnitude. -/
theorem cosineSimilarity_properties :
    (∀ v : List ℝ, (∃ x ∈ v, x ≠ 0) → cosineSimilarity v v = Except.ok 1) ∧
    (∀ a b : List ℝ, cosineSimilarity a b = cosineSimilarity b a) ∧
    (∀ a b : List ℝ, a.length = b.length → magList a = 0 ∨ magList b = 0 →
      cosineSimilarity a b = Except.ok 0) := by
  refine ⟨?_, ?_, ?_⟩
  · intro v hv
    have hS : 0 < sumSq v := sumSq_pos v hv
    have hm : magList v ≠ 0 := by
      rw [Ne, magList_eq_zero_iff]
      exact ne_of_gt hS
    rw [cosineSimilarity_ok v v rfl, cosVal, if_neg (by tauto)]
    rw [dotList_self, magList, Real.mul_self_sqrt (sumSq_nonneg v)]
    rw [div_self (ne_of_gt hS)]
  · intro a b
    by_cases h : a.length = b.length
    · rw [cosineSimilarity_ok a b h, cosineSimilarity_ok b a h.symm]
      rw [cosVal, cosVal, dotList_comm]
      by_cases hz : magList a = 0 ∨ magList b = 0
      · rw [if_pos hz, if_pos (Or.symm hz)]
      · rw [if_neg hz, if_neg (fun hc => hz (Or.symm hc)), mul_comm]
    · rw [cosineSimilarity_error a b h, cosineSimilarity_error b a (fun hh => h hh.symm)]
  · intro a b hlen hz
    rw [cosineSimilarity_ok a b hlen, cosVal, if_pos hz]

/-- Witness for C7: the three conjuncts at concrete vectors. -/
theorem cosineSimilarity_properties_witness :
    cosineSimilarity [(3 : ℝ), 4] [3, 4] = Except.ok 1 ∧
    cosineSimilarity [(1 : ℝ)] [0, 2] = cosineSimilarity [(0 : ℝ), 2] [1] ∧
    cosineSimilarity [(0 : ℝ), 0] [1, 2] = Except.ok 0 := by
  refine ⟨?_, ?_, ?_⟩
  · exact cosineSimilarity_properties.1 [(3 : ℝ), 4] ⟨3, by simp, by norm_num⟩
  · exact cosineSimilarity_properties.2.1 [(1 : ℝ)] [0, 2]
  · have h00 : magList [(0 : ℝ), 0] = 0 := by
      rw [magList_eq_zero_iff]
      simp [sumSq]
    exact cosineSimilarity_properties.2.2 [(0 : ℝ), 0] [1, 2] (by simp) (Or.inl h00)

/-! ## Mock embedder determinism (C8) -/

/-- Claim C8: the mock embedding produced by `generateEmbedding` in mock mode
is a function of the input text alone — two invocations from any two service
states (in particular, from the state left behind by any earlier sequence of
calls) return the identical vector, namely `_generateMockEmbedding text`. -/
theorem mock_embedding_deterministic (s1 s2 : EmbStateMock) (t : String) :
    (generateEmbeddingMock s1 t).1 = (generateEmbeddingMock s2 t).1 ∧
    (generateEmbeddingMock s1 t).1 = generateMockEmbedding t := by
  cases s1 with
  | mk b1 =>
    cases s2 with
    | mk b2 =>
      constructor
      · rfl
      · rw [generateEmbeddingMock]
        by_cases h : t = "" ∨ (jsTrim t).length = 0
        · rw [if_pos h]
        · rw [if_neg h]

/-! ## `detectEmergency` fails open on degenerate input (C10) -/

/-- Claim C10: `detectEmergency` is total on degenerate inputs and fails
open: `null`, `undefined`, the empty string, and non-string values (numbers,
booleans) all produce `false` without a thrown `TypeError`. -/
theorem detectEmergency_fails_open :
    detectEmergencyJS JSValue.nullV = Except.ok false ∧
    detectEmergencyJS JSValue.undefinedV = Except.ok false ∧
    detectEmergencyJS (JSValue.strV "") = Except.ok false ∧
    (∀ q : ℚ, detectEmergencyJS (JSValue.numV q) = Except.ok false) ∧
    (∀ b : Bool, detectEmergencyJS (JSValue.boolV b) = Except.ok false) := by
  refine ⟨rfl, rfl, rfl, ?_, ?_⟩
  · intro q
    have hcond : (jsFalsy (JSValue.numV q) || !(JSValue.numV q).isStringV) = true := by
      rw [show (JSValue.numV q).isStringV = false from rfl]
      simp
    rw [detectEmergencyJS, if_pos hcond]
    intro a h
    exact JSValue.noConfusion h
  · intro b
    have hcond : (jsFalsy (JSValue.boolV b) || !(JSValue.boolV b).isStringV) = true := by
      rw [show (JSValue.boolV b).isStringV = false from rfl]
      simp
    rw [detectEmergencyJS, if_pos hcond]
    intro a h
    exact JSValue.noConfusion h

/-! ## V1 query does not short-circuit on emergencies (C1) -/

/-- Claim C1 (code bug): `detectEmergency` is true for a chest-pain /
difficulty-breathing query, yet V1 `query` on an empty index returns the
fixed no-information payload with confidence 0.0 — not the emergency payload
with confidence 1.0 — because the emergency check only runs inside
`generateResponse`, which the empty-retrieval early return skips. -/
theorem query_emergency_not_short_circuited :
    detectEmergencyStr "chest pain and difficulty breathing" = true ∧
    queryV1 [] "chest pain and difficulty breathing" =
      Except.ok (QueryOutcome.answer true NO_INFO_RESPONSE [] 0.0) ∧
    QueryOutcome.conf (QueryOutcome.answer true NO_INFO_RESPONSE [] 0.0) ≠
      QueryOutcome.conf emergencyOutcome := by
  refine ⟨by decide, ?_, ?_⟩
  · rw [queryV1, retrieveV1, search_empty]
    rfl
  · show (0.0 : ℝ) ≠ 1.0
    norm_num

/-! ## The urgent override in `diagnoseSymptoms` (C2) -/

/-- Counterexample to C2 as stated: `["chest pain"]` triggers
`detectEmergency` on its combined symptom text, but the V1 diagnosis (here on
an empty index, so no evidence accumulates) puts only the generic
requires-professional-evaluation suggestion (confidence 0.4) first — no
seek-emergency-care entry with confidence at least 0.95. -/
theorem diagnose_emergency_not_prepended :
    detectEmergencyStr "chest pain" = true ∧
    diagnoseSymptomsV1 [] ["chest pain"] = Except.ok (DiagnoseOutcome.mk true
      [ConditionSuggestion.mk "Requires professional medical evaluation" 0.4
        "No clear mapping from symptoms to conditions; further evaluation required." []]
      []) ∧
    ¬ ((0.95 : ℝ) ≤ 0.4) := by
  refine ⟨by decide, rfl, by norm_num⟩

theorem jsRound2_le (x b : ℝ) (hb : b * 100 = ((⌊b * 100⌋ : ℤ) : ℝ))
    (h : x ≤ b) : jsRound2 x ≤ b := by
  rw [jsRound2, div_le_iff₀ (by norm_num : (0 : ℝ) < 100)]
  have h1 : (⌊x * 100 + 1 / 2⌋ : ℤ) ≤ ⌊b * 100 + 1 / 2⌋ := by
    apply Int.floor_le_floor
    nlinarith
  have h2 : (⌊b * 100 + 1 / 2⌋ : ℤ) = ⌊b * 100⌋ := by
    rw [hb, Int.floor_int_add]
    norm_num
  rw [hb]
  exact_mod_cast h1.trans_eq h2

/-- Every evidence-based suggestion has confidence at most 0.95. -/
theorem evidenceSuggestion_confidence_le (p : String × Evidence) :
    (evidenceSuggestion p).confidence ≤ 0.95 := by
  rw [evidenceSuggestion]
  refine jsRound2_le _ 0.95 ?_ (min_le_left _ _)
  norm_num

/-- Claim C2, amended: for every symptom list in which some symptom's
lower-cased text contains both "vomit" and "blood" (the bleeding pattern the
code actually tests, e.g. `["vomiting blood"]`), and for every retrieved
document list whatsoever, the first suggestion of the V1 diagnosis scoring is
the urgent seek-emergency-care entry, whose confidence 0.98 is at least
0.95. -/
theorem diagnose_bleeding_override_first (symptoms : List String)
    (docs : List SearchResult)
    (h : (symptoms.map jsToLower).any
      (fun s => strIncludes s "vomit" && strIncludes s "blood") = true) :
    (scoreConditions symptoms docs).possible_conditions.head? = some urgentSuggestion ∧
    (0.95 : ℝ) ≤ urgentSuggestion.confidence := by
  have hov : bleedingOverride (symptoms.map jsToLower) = true := by
    rw [bleedingOverride, h]
    rfl
  have hbase : ∀ y ∈ (evidenceList docs).map evidenceSuggestion,
      y.confidence < urgentSuggestion.confidence := by
    intro y hy
    rcases List.mem_map.mp hy with ⟨p, _, rfl⟩
    refine lt_of_le_of_lt (evidenceSuggestion_confidence_le p) ?_
    show (0.95 : ℝ) < 0.98
    norm_num
  constructor
  · rw [scoreConditions]
    simp only [hov, if_true]
    rw [if_neg (by simp)]
    have hhead := sortByConfDesc_head_of_max urgentSuggestion
      ((evidenceList docs).map evidenceSuggestion) hbase
    cases hsort : sortByConfDesc (urgentSuggestion :: (evidenceList docs).map
        evidenceSuggestion) with
    | nil => rw [hsort] at hhead; exact absurd hhead (by simp)
    | cons z t =>
      rw [hsort] at hhead
      have hz : z = urgentSuggestion := by simpa using hhead
      subst hz
      rfl
  · show (0.95 : ℝ) ≤ 0.98
    norm_num

/-- Witness for the amended C2 at `["vomiting blood"]` with no retrieved
documents. -/
theorem diagnose_bleeding_override_first_witness :
    (scoreConditions ["vomiting blood"] []).possible_conditions.head? =
      some urgentSuggestion ∧
    (0.95 : ℝ) ≤ urgentSuggestion.confidence :=
  diagnose_bleeding_override_first ["vomiting blood"] [] (by decide)

/-! ## First-chunk size bound of the chunker (C9) -/

theorem head_append_ne_nil {α : Type} (acc l : List α) (h : acc ≠ []) :
    (acc ++ l).head? = acc.head? := by
  cases acc with
  | nil => exact absurd rfl h
  | cons a t => rfl

theorem chunkLoop_head_stable (chunkSize overlap : ℕ) (text source : String)
    (sentences : List String) (remaining : List String) :
    ∀ (i cidx : ℕ) (cur : String) (acc : List Chunk), acc ≠ [] →
    (chunkLoop chunkSize overlap text source sentences i remaining cur cidx acc).head? =
      acc.head? := by
  induction remaining with
  | nil =>
    intro i cidx cur acc hacc
    rw [chunkLoop]
    by_cases hcur : cur = ""
    · rw [if_pos hcur]
    · rw [if_neg hcur]
      exact head_append_ne_nil acc _ hacc
  | cons s rest ih =>
    intro i cidx cur acc hacc
    rw [chunkLoop]
    by_cases hif : (cur ++ jsTrim s).length ≤ chunkSize
    · rw [if_pos hif]
      exact ih (i + 1) cidx _ acc hacc
    · rw [if_neg hif]
      by_cases hcur : cur = ""
      · subst hcur
        rw [if_pos rfl, if_pos rfl]
        exact ih (i + 1) cidx _ acc hacc
      · rw [if_neg hcur, if_neg hcur]
        exact (ih (i + 1) (cidx + 1) _ (acc ++ [mkChunk text source cur cidx])
          (by simp)).trans (head_append_ne_nil acc _ hacc)

theorem string_ne_empty_of_length_pos (s : String) (h : s ≠ "") : 0 < s.length := by
  cases s with
  | mk data =>
    cases data with
    | nil => exact absurd rfl h
    | cons c t => simp [String.length]

theorem chunkLoop_first_small (chunkSize overlap : ℕ) (text source : String)
    (sentences : List String) (remaining : List String) :
    ∀ (i cidx : ℕ) (cur : String), cur ≠ "" → cur.length ≤ chunkSize + 1 →
    ∃ c0, (chunkLoop chunkSize overlap text source sentences i remaining cur cidx []).head? =
      some c0 ∧ c0.content.length ≤ chunkSize + 1 := by
  induction remaining with
  | nil =>
    intro i cidx cur hcur hlen
    rw [chunkLoop, if_neg hcur]
    exact ⟨mkChunk text source cur cidx, rfl, hlen⟩
  | cons s rest ih =>
    intro i cidx cur hcur hlen
    rw [chunkLoop]
    by_cases hif : (cur ++ jsTrim s).length ≤ chunkSize
    · rw [if_pos hif]
      rw [String.length_append] at hif
      refine ih (i + 1) cidx (cur ++ (if cur = "" then "" else " ") ++ jsTrim s) ?_ ?_
      · rw [if_neg hcur]
        intro hcontra
        have hlen2 := congrArg String.length hcontra
        rw [String.length_append, String.length_append] at hlen2
        have hpos := string_ne_empty_of_length_pos cur hcur
        have hsp : (" " : String).length = 1 := rfl
        have hz : ("" : String).length = 0 := rfl
        omega
      · rw [if_neg hcur, String.length_append, String.length_append]
        have h1 : (" " : String).length = 1 := rfl
        omega
    · rw [if_neg hif, if_neg hcur, if_neg hcur]
      refine ⟨mkChunk text source cur cidx, ?_, hlen⟩
      exact chunkLoop_head_stable chunkSize overlap text source sentences rest (i + 1)
        (cidx + 1) _ ([] ++ [mkChunk text source cur cidx]) (by simp)

theorem chunkLoop_first_big (chunkSize overlap : ℕ) (text source : String)
    (sentences : List String) (remaining : List String) :
    ∀ (i cidx : ℕ) (cur : String), cur ≠ "" → chunkSize < cur.length →
    (chunkLoop chunkSize overlap text source sentences i remaining cur cidx []).head? =
      some (mkChunk text source cur cidx) := by
  induction remaining with
  | nil =>
    intro i cidx cur hcur _
    rw [chunkLoop, if_neg hcur]
    rfl
  | cons s rest ih =>
    intro i cidx cur hcur hlen
    rw [chunkLoop]
    have hif : ¬ ((cur ++ jsTrim s).length ≤ chunkSize) := by
      rw [String.length_append]
      omega
    rw [if_neg hif, if_neg hcur, if_neg hcur]
    exact chunkLoop_head_stable chunkSize overlap text source sentences rest (i + 1)
      (cidx + 1) _ ([] ++ [mkChunk text source cur cidx]) (by simp)

theorem head_dropWhile_false (p : Char → Bool) :
    ∀ (l : List Char) (c : Char) (rest : List Char),
    l.dropWhile p = c :: rest → p c = false := by
  intro l
  induction l with
  | nil =>
    intro c rest h
    simp [List.dropWhile] at h
  | cons a t ih =>
    intro c rest h
    rw [List.dropWhile_cons] at h
    by_cases hp : p a
    · rw [if_pos hp] at h
      exact ih c rest h
    · rw [if_neg hp] at h
      injection h with h1 h2
      subst h1
      simpa using hp

theorem sentenceMatchesAux_hasTerm :
    ∀ (fuel : ℕ) (l s : List Char), s ∈ sentenceMatchesAux fuel l →
    ∃ c ∈ s, isTermChar c = true := by
  intro fuel
  induction fuel with
  | zero =>
    intro l s h
    simp [sentenceMatchesAux] at h
  | succ f ih =>
    intro l s h
    simp only [sentenceMatchesAux] at h
    by_cases hrun : (l.dropWhile isTermChar).takeWhile (fun c => !isTermChar c) = []
    · rw [if_pos hrun] at h
      simp at h
    · rw [if_neg hrun] at h
      cases hdrop : (l.dropWhile isTermChar).drop
          ((l.dropWhile isTermChar).takeWhile (fun c => !isTermChar c)).length with
      | nil =>
        rw [hdrop] at h
        simp at h
      | cons c rest =>
        rw [hdrop] at h
        have hc : isTermChar c = true := by
          have h2 : (l.dropWhile isTermChar).dropWhile (fun c => !isTermChar c) = c :: rest := by
            rw [dropWhile_eq_drop_length_takeWhile]
            exact hdrop
          have h3 := head_dropWhile_false (fun c => !isTermChar c) _ c rest h2
          simpa using h3
        simp only [List.mem_cons] at h
        rcases h with rfl | htail
        · refine ⟨c, List.mem_append.mpr (Or.inr ?_), hc⟩
          rw [List.takeWhile_cons, if_pos hc]
          exact List.mem_cons_self _ _
        · exact ih _ s htail

theorem chunkSentences_cases (text : String) :
    chunkSentences text = [text] ∨ ∀ s ∈ chunkSentences text, jsTrim s ≠ "" := by
  by_cases hms : ((sentenceMatches text.data).map String.mk).length = 0
  · left
    simp [chunkSentences, hms]
  · right
    intro s hs
    simp only [chunkSentences, hms, if_false] at hs
    rcases List.mem_map.mp hs with ⟨m, hm, rfl⟩
    obtain ⟨c, hcm, hcterm⟩ := sentenceMatchesAux_hasTerm _ _ m hm
    refine jsTrim_mk_ne_empty m c hcm ?_
    have hcval : (c = '.' ∨ c = '!') ∨ c = '?' := by
      simpa [isTermChar] using hcterm
    rcases hcval with (rfl | rfl) | rfl <;> rfl

/-- Claim C9, amended: the first chunk of `chunkText` has content length at
most `chunkSize + 1` whenever the first (trimmed) sentence fits in
`chunkSize` — the joining space between accumulated sentences is not counted
by the size check, so the bound is one more than the claimed `chunkSize` —
and a first sentence longer than `chunkSize` is emitted whole as the first
chunk. -/
theorem chunkText_first_chunk (cs ov : ℕ) (text source s0 : String) (c0 : Chunk)
    (hs : (chunkSentences text).head? = some s0)
    (hc : (chunkText cs ov text source).head? = some c0) :
    ((jsTrim s0).length ≤ cs → c0.content.length ≤ cs + 1) ∧
    (cs < (jsTrim s0).length → c0.content = jsTrim s0) := by
  cases hsen : chunkSentences text with
  | nil =>
    rw [hsen] at hs
    exact absurd hs (by simp)
  | cons t0 tail =>
    rw [hsen] at hs
    have ht0 : t0 = s0 := by simpa using hs
    subst t0
    rw [chunkText, hsen] at hc
    simp only [chunkLoop, str_empty_append, calculateOverlap, overlapAux, jsTrim_empty,
      List.take_zero, List.reverse_nil, eq_self_iff_true, if_true] at hc
    constructor
    · intro hsmall
      rw [if_pos hsmall] at hc
      by_cases h0 : jsTrim s0 = ""
      · rcases chunkSentences_cases text with hone | hall
        · have heq : s0 :: tail = [text] := hsen.symm.trans hone
          injection heq with h1 h2
          subst h2
          rw [h0] at hc
          rw [chunkLoop, if_pos rfl] at hc
          exact absurd hc (by simp)
        · exact absurd h0 (hall s0 (by rw [hsen]; exact List.mem_cons_self _ _))
      · obtain ⟨c0h, hh, hb⟩ := chunkLoop_first_small cs ov text source (s0 :: tail) tail
          (0 + 1) 0 (jsTrim s0) h0 (le_trans hsmall (Nat.le_succ cs))
        have hsome : some c0h = some c0 := hh.symm.trans hc
        have hcc : c0h = c0 := by simpa using hsome
        rw [← hcc]
        exact hb
    · intro hbig
      rw [if_neg (not_le.mpr hbig)] at hc
      have h0 : jsTrim s0 ≠ "" := by
        intro h
        rw [h] at hbig
        simp at hbig
      have hbigloop := chunkLoop_first_big cs ov text source (s0 :: tail) tail
        (0 + 1) 0 (jsTrim s0) h0 hbig
      have hsome : some (mkChunk text source (jsTrim s0) 0) = some c0 :=
        hbigloop.symm.trans hc
      have hcc : mkChunk text source (jsTrim s0) 0 = c0 := by simpa using hsome
      rw [← hcc]
      rfl

/-- Counterexample to C9 as stated: with `chunkSize = 9`, the text
`"aaaa. bbb. cccccccccc."` has a first sentence of trimmed length 5 (within
the chunk size), yet the first chunk is `"aaaa. bbb."` of length 10 — one
more than `chunkSize`, because the size check `(currentChunk + sentence)`
does not count the joining space. -/
theorem chunkText_first_chunk_counterexample :
    (chunkSentences "aaaa. bbb. cccccccccc.").head?.map (fun s => (jsTrim s).length) =
      some 5 ∧
    5 ≤ 9 ∧
    ((chunkText 9 0 "aaaa. bbb. cccccccccc." "doc.pdf").head?.map
      (fun c => c.content.length)) = some 10 ∧
    ¬ (10 ≤ 9) := by
  refine ⟨by decide, by decide, by decide, by decide⟩

/-- Witness for the amended C9 at scenario A: chunk size 45, overlap 15; the
first sentence has trimmed length 33 ≤ 45 and the first chunk is exactly that
sentence, of length 33 ≤ 46. -/
theorem chunkText_first_chunk_witness :
    (chunkText 45 15
      "Diabetes causes increased thirst. Patients often feel fatigue. Regular monitoring is advised."
      "doc.pdf").head? =
      some (Chunk.mk "Diabetes causes increased thirst." 0 "doc.pdf" 0 33) ∧
    (Chunk.mk "Diabetes causes increased thirst." 0 "doc.pdf" (0 : ℤ) 33).content.length ≤
      45 + 1 := by
  have hs : (chunkSentences
      "Diabetes causes increased thirst. Patients often feel fatigue. Regular monitoring is advised.").head? =
      some "Diabetes causes increased thirst." := by decide
  have hc : (chunkText 45 15
      "Diabetes causes increased thirst. Patients often feel fatigue. Regular monitoring is advised."
      "doc.pdf").head? =
      some (Chunk.mk "Diabetes causes increased thirst." 0 "doc.pdf" 0 33) := by rfl
  exact ⟨hc, (chunkText_first_chunk 45 15
    "Diabetes causes increased thirst. Patients often feel fatigue. Regular monitoring is advised."
    "doc.pdf" "Diabetes causes increased thirst."
    (Chunk.mk "Diabetes causes increased thirst." 0 "doc.pdf" 0 33) hs hc).1 (by decide)⟩

/-! ## Confidence range of the V2 query (C6) -/

theorem length_addAt (l : List ℝ) (i : ℕ) (v : ℝ) : (addAt l i v).length = l.length := by
  rw [addAt, List.length_set]

theorem length_scatterWord (l : List ℝ) (w : String) : (scatterWord l w).length = l.length := by
  rw [scatterWord]
  by_cases h : w.length = 0
  · rw [if_pos h]
  · rw [if_neg h, length_addAt, length_addAt, length_addAt]

theorem length_foldl_scatterWord (ws : List String) :
    ∀ l : List ℝ, (ws.foldl scatterWord l).length = l.length := by
  induction ws with
  | nil => intro l; rfl
  | cons w rest ih =>
    intro l
    rw [List.foldl_cons, ih, length_scatterWord]

theorem length_generateMockEmbedding (t : String) :
    (generateMockEmbedding t).length = 1536 := by
  rw [generateMockEmbedding]
  rw [List.length_map, length_foldl_scatterWord, List.length_replicate]

theorem sumSq_replicate_zero (n : ℕ) : sumSq (List.replicate n (0 : ℝ)) = 0 := by
  rw [sumSq]
  suffices h : ∀ (n : ℕ) (a : ℝ), (List.replicate n (0 : ℝ)).foldl (fun s x => s + x * x) a = a
    from h n 0
  intro n
  induction n with
  | zero => intro a; rfl
  | succ m ih =>
    intro a
    rw [List.replicate_succ, List.foldl_cons]
    rw [show a + 0 * 0 = a by ring]
    exact ih a

theorem magList_replicate_zero (n : ℕ) : magList (List.replicate n (0 : ℝ)) = 0 := by
  rw [magList, sumSq_replicate_zero, Real.sqrt_zero]

/-- Every result `search` returns carries at least the 0.1 display floor. -/
theorem search_results_ge_floor (documents : List StoredDoc) (q : List ℝ)
    (topK : ℕ) (threshold : ℝ) (rs : List SearchResult)
    (h : search documents q topK threshold = Except.ok rs) :
    ∀ r ∈ rs, (0.1 : ℝ) ≤ r.similarity := by
  rw [search] at h
  by_cases hne : documents.length = 0
  · rw [if_pos hne] at h
    intro r hr
    rcases h with h
    injection h with h2
    rw [← h2] at hr
    simp at hr
  · rw [if_neg hne] at h
    cases hm : mapMEx (fun d => (cosineSimilarity q d.embedding).map
        (fun s => SearchResult.mk d.id d.content d.source s)) documents with
    | error e => rw [hm] at h; exact absurd h (by simp)
    | ok results =>
      rw [hm] at h
      injection h with h2
      intro r hr
      rw [← h2] at hr
      rcases List.mem_map.mp hr with ⟨r2, _, rfl⟩
      rw [floorSim_similarity]
      exact le_max_left _ _

/-- On a non-empty store with positive `topK` and matching dimensions,
`search` succeeds with a non-empty result list. -/
theorem search_nonempty (documents : List StoredDoc) (q : List ℝ)
    (topK : ℕ) (threshold : ℝ) (hne : documents ≠ []) (htk : 0 < topK)
    (hdim : ∀ d ∈ documents, d.embedding.length = q.length) :
    ∃ rs, search documents q topK threshold = Except.ok rs ∧ rs ≠ [] := by
  rw [search_eq documents q topK threshold hne hdim]
  refine ⟨_, rfl, ?_⟩
  have hsortlen : (sortBySimDesc (documents.map (scoreDoc q))).length = documents.length := by
    rw [length_sortBySimDesc, List.length_map]
  have hsortne : sortBySimDesc (documents.map (scoreDoc q)) ≠ [] := by
    intro hnil
    rw [hnil] at hsortlen
    exact hne (List.length_eq_zero.mp hsortlen.symm)
  have htake : ∀ (l : List SearchResult), l ≠ [] →
      l.take topK ≠ [] := by
    intro l hl
    cases l with
    | nil => exact absurd rfl hl
    | cons a t =>
      cases topK with
      | zero => exact absurd htk (by simp)
      | succ m => simp
  have hchosen : (if (searchFiltered documents q threshold).length = 0 then
      ((sortBySimDesc (documents.map (scoreDoc q))).take topK).map (floorSim 0.2)
    else if (searchFiltered documents q threshold).length < topK then
      searchFiltered documents q threshold ++
        ((sortBySimDesc (documents.map (scoreDoc q))).filter
          (fun r => decide (r.similarity < threshold))).take
          (topK - (searchFiltered documents q threshold).length)
    else searchFiltered documents q threshold) ≠ [] := by
    split_ifs with h1 h2
    · intro hnil
      exact htake _ hsortne (List.map_eq_nil_iff.mp hnil)
    · intro hnil
      rcases List.append_eq_nil.mp hnil with ⟨hf, _⟩
      exact h1 (by rw [hf]; rfl)
    · intro hnil
      exact h1 (by rw [hnil]; rfl)
  intro hnil
  exact htake _ hchosen (List.map_eq_nil_iff.mp hnil)

/-- Every keyword-search result carries at least the 0.1 floor. -/
theorem keywordSearch_ge_floor (store : List StoredDoc) (query : String) (topK : ℕ) :
    ∀ r ∈ keywordSearch store query topK, (0.1 : ℝ) ≤ r.similarity := by
  intro r hr
  rw [keywordSearch] at hr
  have hr2 := (mem_sortBySimDesc r _).mp (List.mem_of_mem_take hr)
  have hr3 := List.mem_of_mem_filter hr2
  rcases List.mem_map.mp hr3 with ⟨d, _, rfl⟩
  exact le_min (by norm_num) (le_max_left _ _)

/-- The V2 retrieval path with 1536-dimensional stored embeddings: it
succeeds, every returned similarity is at least 0.1, an empty store yields no
documents, and a non-empty store always yields at least one. -/
theorem retrieveV2_spec (store : List StoredDoc) (q : String) (topK : ℕ) (htk : 0 < topK)
    (hdim : ∀ d ∈ store, d.embedding.length = 1536) :
    ∃ docs, retrieveV2 store q topK = Except.ok docs ∧
      (∀ r ∈ docs, (0.1 : ℝ) ≤ r.similarity) ∧
      (store = [] → docs = []) ∧ (store ≠ [] → docs ≠ []) := by
  have hdim2 : ∀ d ∈ store, d.embedding.length = (generateMockEmbedding q).length := by
    intro d hd
    rw [length_generateMockEmbedding]
    exact hdim d hd
  by_cases hne : store = []
  · subst hne
    refine ⟨[], ?_, by simp, fun _ => rfl, fun h => absurd rfl h⟩
    rw [retrieveV2, search_empty]
    rfl
  · obtain ⟨rs, hs, hrsne⟩ := search_nonempty store (generateMockEmbedding q) topK 0.1
      hne htk hdim2
    refine ⟨rs, ?_, search_results_ge_floor store (generateMockEmbedding q) topK 0.1 rs hs,
      fun h => absurd h hne, fun _ => hrsne⟩
    rw [retrieveV2, hs]
    show (if rs.length = 0 ∧ 0 < store.length then Except.ok (keywordSearch store q topK)
      else Except.ok rs) = Except.ok rs
    rw [if_neg ?hcond]
    case hcond =>
      intro hcontra
      exact hrsne (List.length_eq_zero.mp hcontra.1)

/-- Claim C6, amended: with no generative client configured, every
non-emergency V2 query result is an ordinary answer whose confidence lies in
[0, 0.95] and equals 0.0 whenever `sourcesUsed` is empty; on an empty index
the result is the fixed API-unavailable payload with success, empty
`sourcesUsed` and confidence 0.0.  (The restrictions are forced by the code:
the emergency payload carries confidence 1.0, and the OpenAI-backed
no-document paths return confidence 0.7 with empty `sourcesUsed`.) -/
theorem query_confidence_range (store : List StoredDoc) (q : String)
    (hdim : ∀ d ∈ store, d.embedding.length = 1536)
    (hnemer : detectEmergencyStr q = false) :
    ∃ success response sources conf,
      queryV2 false (fun _ => "") store q =
        Except.ok (QueryOutcome.answer success response sources conf) ∧
      0 ≤ conf ∧ conf ≤ 0.95 ∧ (sources = [] → conf = 0) ∧
      (store = [] → success = true ∧ response = NO_API_EMPTY_RESPONSE ∧
        sources = [] ∧ conf = 0) := by
  obtain ⟨docs, hret, hfloor, hemp, hnemp⟩ := retrieveV2_spec store q 5 (by norm_num) hdim
  by_cases hne : store = []
  · subst hne
    refine ⟨true, NO_API_EMPTY_RESPONSE, [], 0.0, ?_, by norm_num, by norm_num,
      fun _ => by norm_num, fun _ => ⟨rfl, rfl, rfl, by norm_num⟩⟩
    rw [queryV2, hret]
    rfl
  · have hdocs : docs ≠ [] := hnemp hne
    have hstorelen : ¬ (store.length = 0) := fun h => hne (List.length_eq_zero.mp h)
    have hdocslen : ¬ (docs.length = 0) := fun h => hdocs (List.length_eq_zero.mp h)
    have hd0 : (docs.headD defaultResult).similarity + 0.1 ∈ Set.Ici (0.2 : ℝ) := by
      cases docs with
      | nil => exact absurd rfl hdocs
      | cons d t =>
        have hmem : d ∈ d :: t := List.mem_cons_self d t
        have := hfloor d hmem
        simp only [List.headD_cons, Set.mem_Ici]
        linarith
    refine ⟨true, extractiveResponseText q docs,
      docs.map (fun d => SourceUsed.mk d.source d.similarity (d.content.take 100 ++ "...")),
      if 0 < docs.length then min 0.95 ((docs.headD defaultResult).similarity + 0.1) else 0.5,
      ?_, ?_, ?_, ?_, fun h => absurd h hne⟩
    · rw [queryV2, hret]
      show (if store.length = 0 then _ else if docs.length = 0 then _
        else Except.ok (generateResponse q docs)) = _
      rw [if_neg hstorelen, if_neg hdocslen]
      rw [generateResponse, hnemer]
      rw [if_neg (by simp), if_neg hdocslen]
    · rw [if_pos (List.length_pos.mpr hdocs)]
      have h2 : (0.2 : ℝ) ≤ (docs.headD defaultResult).similarity + 0.1 := hd0
      exact le_min (by norm_num) (by linarith)
    · rw [if_pos (List.length_pos.mpr hdocs)]
      exact min_le_left _ _
    · intro hmap
      exact absurd (List.map_eq_nil_iff.mp hmap) hdocs

/-- Witness for the amended C6 at an empty index and a non-emergency query. -/
theorem query_confidence_range_witness :
    queryV2 false (fun _ => "") [] "hello" =
      Except.ok (QueryOutcome.answer true NO_API_EMPTY_RESPONSE [] 0) ∧
    (0 : ℝ) ≤ 0 ∧ (0 : ℝ) ≤ 0.95 := by
  obtain ⟨success, response, sources, conf, h1, h2, h3, _, h5⟩ :=
    query_confidence_range [] "hello" (by simp) (by decide)
  obtain ⟨hs, hr, hsrc, hcf⟩ := h5 rfl
  subst hs
  subst hr
  subst hsrc
  subst hcf
  exact ⟨h1, le_refl 0, by norm_num⟩

/-- Counterexample to C6 as stated: on a one-chunk index, an emergency query
reaches `generateResponse`, which returns the fixed emergency payload with
confidence 1.0 — outside [0, 0.95]. -/
theorem query_confidence_counterexample :
    queryV2 false (fun _ => "")
      [StoredDoc.mk 0 "content" (List.replicate 1536 0) "doc.pdf"]
      "severe chest pain and difficulty breathing" = Except.ok emergencyOutcome ∧
    QueryOutcome.conf emergencyOutcome = 1.0 ∧ ¬ ((1.0 : ℝ) ≤ 0.95) := by
  refine ⟨?_, rfl, by norm_num⟩
  have hdim2 : ∀ d ∈ [StoredDoc.mk 0 "content" (List.replicate 1536 (0 : ℝ)) "doc.pdf"],
      d.embedding.length =
        (generateMockEmbedding "severe chest pain and difficulty breathing").length := by
    intro d hd
    rw [List.mem_singleton] at hd
    subst hd
    rw [length_generateMockEmbedding, List.length_replicate]
  have hscore : scoreDoc (generateMockEmbedding "severe chest pain and difficulty breathing")
      (StoredDoc.mk 0 "content" (List.replicate 1536 (0 : ℝ)) "doc.pdf") =
      SearchResult.mk 0 "content" "doc.pdf" 0 := by
    rw [scoreDoc]
    rw [cosVal, if_pos (Or.inr (magList_replicate_zero 1536))]
  have hsearch : search [StoredDoc.mk 0 "content" (List.replicate 1536 (0 : ℝ)) "doc.pdf"]
      (generateMockEmbedding "severe chest pain and difficulty breathing") 5 0.1 =
      Except.ok [SearchResult.mk 0 "content" "doc.pdf" 0.2] := by
    rw [search_eq _ _ _ _ (List.cons_ne_nil _ _) hdim2]
    rw [searchFiltered]
    simp only [List.map_cons, List.map_nil, hscore, sortBySimDesc, insertBySim]
    rw [List.filter_cons_of_neg (by norm_num), List.filter_nil]
    rw [if_pos (show (([] : List SearchResult)).length = 0 from rfl)]
    have hfl : floorSim 0.2 (SearchResult.mk 0 "content" "doc.pdf" 0) =
        SearchResult.mk 0 "content" "doc.pdf" 0.2 := by
      have hmax : max (0.2 : ℝ) 0 = 0.2 := max_eq_left (by norm_num)
      simp [floorSim, hmax]
    have hfl1 : floorSim 0.1 (SearchResult.mk 0 "content" "doc.pdf" 0.2) =
        SearchResult.mk 0 "content" "doc.pdf" 0.2 := by
      have hmax : max (0.1 : ℝ) 0.2 = 0.2 := max_eq_right (by norm_num)
      simp [floorSim, hmax]
    show Except.ok [floorSim 0.1 (floorSim 0.2 (SearchResult.mk 0 "content" "doc.pdf" 0))] = _
    rw [hfl, hfl1]
  have hret : retrieveV2 [StoredDoc.mk 0 "content" (List.replicate 1536 (0 : ℝ)) "doc.pdf"]
      "severe chest pain and difficulty breathing" 5 =
      Except.ok [SearchResult.mk 0 "content" "doc.pdf" 0.2] := by
    rw [retrieveV2, hsearch]
    exact if_neg (by decide)
  rw [queryV2, hret]
  show (if ([StoredDoc.mk 0 "content" (List.replicate 1536 (0 : ℝ)) "doc.pdf"]).length = 0
    then _ else if ([SearchResult.mk 0 "content" "doc.pdf" (0.2 : ℝ)]).length = 0 then _
    else Except.ok (generateResponse "severe chest pain and difficulty breathing"
      [SearchResult.mk 0 "content" "doc.pdf" 0.2])) = _
  rw [if_neg (by decide), if_neg (by decide)]
  rw [generateResponse, if_pos (by decide)]
